import Mathlib

/-!
# gcloud-speech-text: the WAV sample-rate reader and the transcription run

A shallow embedding of `src/app.go`.

* `getSampleRate` (app.go 18-39) is embedded once, over the `Seek` and `Read`
  methods of the handle it is given. `File` is an `*os.File` open on a
  regular file (the bytes of the file and the read position of the handle);
  `Handle` is what `os.Open` returns: a `File`, a handle on a directory or a
  handle on a pipe.
* `main` (app.go 41-117) is embedded as a function from the inputs of a run
  (arguments, file system, clock text, behaviour of the recognition service)
  to the sequence of observable events of the run and the exit status.

Machine integers are natural numbers or integers with the reduction modulo
`2 ^ 32` written out.
-/

deriving instance DecidableEq for Except

set_option maxRecDepth 100000

namespace App

/-! ## Bytes, errors and file handles -/

/-- A Go `byte`. -/
abbrev Byte := Fin 256

/-- How a Go call that returns `(value, error)` can fail to produce a value:
it returns a non-nil `error` whose text is `msg`, or it panics. -/
inductive Failure where
  | error (msg : String)
  | panic (msg : String)
  deriving DecidableEq, Repr

/-- An `*os.File` open on a regular file: the name it was opened with, the
bytes of the file and the read position of the handle. -/
structure File where
  name : String
  data : List Byte
  pos : Nat
  deriving DecidableEq, Repr

/-- The text of `io.EOF`. -/
def EOF : String := "EOF"

/-- The method `(*os.File).Seek(offset, whence)` on a regular file. `whence`
is 0 for the start of the file, 1 for the current position and 2 for the end.
The new position may lie beyond the end of the file; a negative one, or an
unknown `whence`, is refused with `EINVAL` and leaves the position as it
was. The result is the handle after the call and the new position. -/
def File.Seek (f : File) (offset : Int) (whence : Nat) : File × Except String Nat :=
  let base : Option Int :=
    match whence with
    | 0 => some 0
    | 1 => some (f.pos : Int)
    | 2 => some (f.data.length : Int)
    | _ => none
  match base with
  | none => (f, .error ("seek " ++ f.name ++ ": invalid argument"))
  | some b =>
    if b + offset < 0 then (f, .error ("seek " ++ f.name ++ ": invalid argument"))
    else ({ f with pos := (b + offset).toNat }, .ok (b + offset).toNat)

/-- The method `(*os.File).Read(b)` on a regular file: it reads up to
`len(b)` bytes from the read position into the front of `b`, advances the
position by the number of bytes read, and returns that number. A read of
zero bytes into a non-empty buffer is the end of the file and returns
`0, io.EOF`. The result is the handle after the call, the buffer after the
call, and the count or the error. -/
def File.Read (f : File) (b : List Byte) : File × List Byte × Except String Nat :=
  if b.length = 0 then (f, b, .ok 0)
  else
    let got := (f.data.drop f.pos).take b.length
    if got.length = 0 then (f, b, .error EOF)
    else ({ f with pos := f.pos + got.length }, got ++ b.drop got.length, .ok got.length)

/-- The Go expression `make([]byte, n)`: a zeroed buffer of `n` bytes. -/
def makeBytes (n : Nat) : List Byte := List.replicate n 0

/-- The function `binary.LittleEndian.Uint32(b)`:
`uint32(b[0]) | uint32(b[1])<<8 | uint32(b[2])<<16 | uint32(b[3])<<24`,
after the bounds check `_ = b[3]`, which panics on a shorter slice (`none`). -/
def LittleEndian.Uint32 (b : List Byte) : Option Nat :=
  match b with
  | b0 :: b1 :: b2 :: b3 :: _ =>
    some ((b0.val ||| (b1.val <<< 8) % 2 ^ 32 ||| (b2.val <<< 16) % 2 ^ 32
      ||| (b3.val <<< 24) % 2 ^ 32) % 2 ^ 32)
  | _ => none

/-! ## getSampleRate (app.go 18-39) -/

/-- The body of `getSampleRate(file)` over the methods `Seek` and `Read` of
the handle: seek to offset 24 from the start, read into a fresh 4-byte
buffer, decode the buffer as a little-endian `uint32`. The number of bytes
that `Read` reports is discarded, as in the source
(`_, err = file.Read(sampleRateBytes)`). The result is the handle after the
call and the returned value or failure. -/
def getSampleRateOn {H : Type} (Seek : H → Int → Nat → H × Except String Nat)
    (Read : H → List Byte → H × List Byte × Except String Nat) (file : H) :
    H × Except Failure Nat :=
  let sampleRateOffset : Int := 24
  match Seek file sampleRateOffset 0 with
  | (file1, .error err) =>
    (file1, .error (.error ("failed to seek to sample rate: " ++ err)))
  | (file1, .ok _) =>
    let sampleRateBytes := makeBytes 4
    match Read file1 sampleRateBytes with
    | (file2, _, .error err) =>
      (file2, .error (.error ("failed to read sample rate bytes: " ++ err)))
    | (file2, sampleRateBytes1, .ok _) =>
      match LittleEndian.Uint32 sampleRateBytes1 with
      | some sampleRate => (file2, .ok sampleRate)
      | none => (file2, .error (.panic "index out of range [3]"))

/-- The function `getSampleRate(file)` on a handle open on a regular
file. -/
def getSampleRate (file : File) : File × Except Failure Nat :=
  getSampleRateOn File.Seek File.Read file

/-- What `os.Open` returns: a handle on a regular file; a handle on a
directory, which has a name and a position and no bytes to read; or a handle
on a pipe, which has a name and the bytes still to come and no position. -/
inductive Handle where
  | regular (file : File)
  | directory (name : String) (pos : Nat)
  | pipe (name : String) (stream : List Byte)
  deriving DecidableEq, Repr

/-- The method `Seek` of a handle. On a directory it moves the position in
the same way, the end of the directory stream taken at offset 0. On a pipe
it fails with `ESPIPE`. -/
def Handle.Seek (h : Handle) (offset : Int) (whence : Nat) : Handle × Except String Nat :=
  match h with
  | .regular file =>
    match file.Seek offset whence with
    | (file1, res) => (.regular file1, res)
  | .directory name pos =>
    let base : Option Int :=
      match whence with
      | 0 => some 0
      | 1 => some (pos : Int)
      | 2 => some 0
      | _ => none
    match base with
    | none => (h, .error ("seek " ++ name ++ ": invalid argument"))
    | some b =>
      if b + offset < 0 then (h, .error ("seek " ++ name ++ ": invalid argument"))
      else (.directory name (b + offset).toNat, .ok (b + offset).toNat)
  | .pipe name _ => (h, .error ("seek " ++ name ++ ": illegal seek"))

/-- The method `Read` of a handle. On a directory every read into a
non-empty buffer fails with `EISDIR`. On a pipe it takes the next bytes of
the stream, and reports `io.EOF` when none is left. -/
def Handle.Read (h : Handle) (b : List Byte) : Handle × List Byte × Except String Nat :=
  match h with
  | .regular file =>
    match file.Read b with
    | (file1, b1, res) => (.regular file1, b1, res)
  | .directory name _ =>
    if b.length = 0 then (h, b, .ok 0)
    else (h, b, .error ("read " ++ name ++ ": is a directory"))
  | .pipe name stream =>
    if b.length = 0 then (h, b, .ok 0)
    else
      let got := stream.take b.length
      if got.length = 0 then (h, b, .error EOF)
      else (.pipe name (stream.drop got.length), got ++ b.drop got.length, .ok got.length)

/-! ## Text formatting of the fmt package -/

/-- The function `fmt.Println` on operands already rendered with `%v`:
a space between every two operands and a newline at the end. -/
def Println (operands : List String) : String :=
  " ".intercalate operands ++ "\n"

/-- A value below 100 as two decimal digits. -/
def twoDigits (n : Nat) : String :=
  if n < 10 then "0" ++ toString n else toString n

/-- The verb `%.2f` of the fmt package on a `float32` given by its IEEE 754
bit pattern `bits` (1 sign bit, 8 exponent bits, 23 fraction bits). A finite
value is `mant * 2 ^ e2`; it is printed with two digits after the point, the
exact value rounded to the nearest hundredth and a tie rounded to the even
one, with a leading `-` when the sign bit is set. Infinities print as `+Inf`
and `-Inf`, a NaN as `NaN`. -/
def fmtFloat32 (bits : Nat) : String :=
  let sign : Nat := bits / 2 ^ 31 % 2
  let e : Nat := bits / 2 ^ 23 % 256
  let frac : Nat := bits % 2 ^ 23
  if e = 255 then
    if frac ≠ 0 then "NaN" else if sign = 1 then "-Inf" else "+Inf"
  else
    let mant : Nat := if e = 0 then frac else frac + 2 ^ 23
    let e2 : Int := (if e = 0 then 1 else (e : Int)) - 150
    let num : Nat := if 0 ≤ e2 then mant * 100 * 2 ^ e2.toNat else mant * 100
    let den : Nat := if 0 ≤ e2 then 1 else 2 ^ (-e2).toNat
    let q : Nat := num / den
    let r : Nat := num % den
    let h : Nat := if den < 2 * r ∨ (2 * r = den ∧ q % 2 = 1) then q + 1 else q
    (if sign = 1 then "-" else "") ++ toString (h / 100) ++ "." ++ twoDigits (h % 100)

/-! The next two definitions say what a confidence printed with two decimals
is; they are not taken from the program and are compared with `fmtFloat32`
below. -/

/-- The magnitude of the finite `float32` with bit pattern `bits`, after
IEEE 754: `(1 + frac / 2^23) * 2^(e - 127)` for a normal number and
`frac / 2^149` for a subnormal one. -/
def float32Abs (bits : Nat) : ℚ :=
  let e : Nat := bits / 2 ^ 23 % 256
  let frac : Nat := bits % 2 ^ 23
  if e = 0 then (frac : ℚ) / 2 ^ 149
  else (1 + (frac : ℚ) / 2 ^ 23) * 2 ^ e / 2 ^ 127

/-- A text with two decimals: it ends with a point and two decimal
digits. -/
def endsWithTwoDecimals (s : String) : Bool :=
  match s.data.reverse with
  | c0 :: c1 :: '.' :: _ => c1.isDigit && c0.isDigit
  | _ => false

/-- The Go conversion `int32(x)` of a `uint32`: the same 32 bits read as a
two's complement number. -/
def toInt32 (x : Nat) : Int :=
  let bits : Nat := x % 2 ^ 32
  if bits < 2 ^ 31 then (bits : Int) else (bits : Int) - 2 ^ 32

/-! ## The recognition request and response (package speechpb) -/

/-- The enumeration `speechpb.RecognitionConfig_AudioEncoding`. -/
inductive AudioEncoding where
  | ENCODING_UNSPECIFIED
  | LINEAR16
  | FLAC
  | MULAW
  | AMR
  | AMR_WB
  | OGG_OPUS
  | SPEEX_WITH_HEADER_BYTE
  | WEBM_OPUS
  deriving DecidableEq, Repr

/-- The fields of `speechpb.RecognitionConfig` that `main` sets; the other
fields keep their zero value. -/
structure RecognitionConfig where
  Encoding : AudioEncoding
  SampleRateHertz : Int
  LanguageCode : String
  deriving DecidableEq, Repr

/-- The one-of `AudioSource` of `speechpb.RecognitionAudio`: the audio bytes
inline, or the URI of an object in external storage. -/
inductive AudioSource where
  | Content (content : List Byte)
  | Uri (uri : String)
  deriving DecidableEq, Repr

/-- The message `speechpb.RecognitionAudio`. -/
structure RecognitionAudio where
  AudioSource : AudioSource
  deriving DecidableEq, Repr

/-- The message `speechpb.LongRunningRecognizeRequest`. -/
structure LongRunningRecognizeRequest where
  Config : RecognitionConfig
  Audio : RecognitionAudio
  deriving DecidableEq, Repr

/-- The message `speechpb.SpeechRecognitionAlternative`: the transcript and
the confidence, a `float32` given by its bit pattern. -/
structure SpeechRecognitionAlternative where
  Transcript : String
  Confidence : Nat
  deriving DecidableEq, Repr

/-- The message `speechpb.SpeechRecognitionResult`. -/
structure SpeechRecognitionResult where
  Alternatives : List SpeechRecognitionAlternative
  deriving DecidableEq, Repr

/-- The message `speechpb.LongRunningRecognizeResponse`. -/
structure LongRunningRecognizeResponse where
  Results : List SpeechRecognitionResult
  deriving DecidableEq, Repr

/-! ## The inputs and the observable events of a run -/

/-- What a path names when it is opened for reading: a regular file with its
bytes, a directory, a pipe with the bytes that its writer sends, or nothing
that can be opened, with the text of the error number that `open` reports
(`no such file or directory`, `not a directory`, `permission denied`, and so
on). -/
inductive Node where
  | regular (data : List Byte)
  | directory
  | pipe (stream : List Byte)
  | fails (errno : String)
  deriving DecidableEq, Repr

/-- Everything a run of `main` reads from outside the program. -/
structure World where
  /-- The argument list `os.Args`, the program name first. -/
  args : List String
  /-- The file system: what each path names. -/
  fs : String → Node
  /-- An operating-system failure reported to the call `ioutil.ReadFile`
  (the file became unreadable after it was opened), if any. -/
  readFileFault : Option String
  /-- The error of `speech.NewClient`, if any. -/
  newClient : Option String
  /-- The error of `client.LongRunningRecognize` on a request, if any. -/
  recognize : LongRunningRecognizeRequest → Option String
  /-- What `resp.Wait` returns for the operation started by a request. -/
  wait : LongRunningRecognizeRequest → Except String LongRunningRecognizeResponse
  /-- The text of `end.Sub(start)`, the elapsed wall-clock time. -/
  elapsed : String

/-- One observable action of a run, in program order. -/
inductive Event where
  /-- Text written to the standard output by one print call. -/
  | stdout (text : String)
  /-- The call `os.Open(path)`. -/
  | openFile (path : String)
  /-- The call `getSampleRate(file)` on the handle opened on `path`. -/
  | headerRead (path : String)
  /-- The call `ioutil.ReadFile(path)`. -/
  | readFile (path : String)
  /-- The call `speech.NewClient` with the credentials file. -/
  | newClient (credentials : String)
  /-- The call `client.LongRunningRecognize(ctx, req)`. -/
  | recognize (req : LongRunningRecognizeRequest)
  /-- The call `resp.Wait(ctx)`. -/
  | wait
  /-- The call `log.Fatalf`: the message is logged and the process exits
  with status 1 without running the deferred calls. -/
  | fatal (message : String)
  /-- A run-time panic. -/
  | crash (message : String)
  /-- The deferred `client.Close()`. -/
  | closeClient
  /-- The deferred `file.Close()`. -/
  | closeFile (path : String)
  deriving DecidableEq, Repr

/-- The outcome of a run: its events in order and its exit status. -/
structure Run where
  events : List Event
  exit : Nat
  deriving DecidableEq, Repr

/-- The function `os.Open(name)`: a handle at position 0 on the regular
file or the directory that the name denotes, a handle on the pipe, or the
path error `open <name>: <errno>`. -/
def osOpen (fs : String → Node) (name : String) : Except String Handle :=
  match fs name with
  | .regular data => .ok (.regular { name := name, data := data, pos := 0 })
  | .directory => .ok (.directory name 0)
  | .pipe stream => .ok (.pipe name stream)
  | .fails errno => .error ("open " ++ name ++ ": " ++ errno)

/-- The read loop of `ioutil.ReadFile`: `Read` into a 512-byte buffer and
append what was read until `Read` reports the end of the file. `fuel` bounds
the number of rounds. -/
def readLoop (fuel : Nat) (f : File) (acc : List Byte) : Except String (List Byte) :=
  match fuel with
  | 0 => .error "read: too many rounds"
  | fuel + 1 =>
    match f.Read (makeBytes 512) with
    | (_, _, .error err) => if err = EOF then .ok acc else .error err
    | (f1, b, .ok n) => readLoop fuel f1 (acc ++ b.take n)

/-- The function `ioutil.ReadFile(name)`: it opens the file by name, which
gives a handle of its own at position 0, and reads that handle to the end of
the file; on a directory the first read fails; on a pipe it returns the
whole stream. An operating-system failure
`fault` is returned as the error. -/
def ReadFile (fs : String → Node) (fault : Option String) (name : String) :
    Except String (List Byte) :=
  match fault with
  | some err => .error err
  | none =>
    match osOpen fs name with
    | .error err => .error err
    | .ok (.regular f) => readLoop (f.data.length + 1) f []
    | .ok (.directory dir _) => .error ("read " ++ dir ++ ": is a directory")
    | .ok (.pipe _ stream) => .ok stream

/-! ## main (app.go 41-117) -/

/-- The text of one transcript line:
`fmt.Printf("\"%v\" (confidence=%.2f)\n", alt.Transcript, alt.Confidence)`. -/
def transcriptLine (alt : SpeechRecognitionAlternative) : String :=
  "\"" ++ alt.Transcript ++ "\" (confidence=" ++ fmtFloat32 alt.Confidence ++ ")\n"

/-- The inner loop `for _, alt := range result.Alternatives`: one `Printf`
per alternative, appended to the events so far. -/
def printAlternatives (out : List Event) : List SpeechRecognitionAlternative → List Event
  | [] => out
  | alt :: rest => printAlternatives (out ++ [.stdout (transcriptLine alt)]) rest

/-- The outer loop `for _, result := range result.Results`. -/
def printResults (out : List Event) : List SpeechRecognitionResult → List Event
  | [] => out
  | result :: rest => printResults (printAlternatives out result.Alternatives) rest

/-- The request that `main` builds from the parsed sample rate and the
content of the file (app.go 85-94). -/
def buildRequest (sampleRate : Nat) (audioFileContent : List Byte) :
    LongRunningRecognizeRequest :=
  { Config :=
      { Encoding := .LINEAR16
        SampleRateHertz := toInt32 sampleRate
        LanguageCode := "en-US" }
    Audio := { AudioSource := .Content audioFileContent } }

/-- The function `main`. Each step appends its events; a failing step ends
the run with `log.Fatalf` and exit status 1; the normal end runs the deferred
calls, last registered first, and exits with status 0. The index of
`os.Args[1]` is in range after the length check, so the default of `getD` is
never used. The start time and the background context taken before the
length check are inputs and have no event. -/
def main (w : World) : Run :=
  if w.args.length < 2 then
    { events := [.stdout (Println ["No argument provided."])], exit := 0 }
  else
    let audioFilePath := w.args.getD 1 ""
    let ev0 : List Event := [.stdout (Println ["Audio file: ", audioFilePath])]
    let ev1 := ev0 ++ [.openFile audioFilePath]
    match osOpen w.fs audioFilePath with
    | .error err => { events := ev1 ++ [.fatal ("Failed to open WAV file: " ++ err)], exit := 1 }
    | .ok file =>
      let ev2 := ev1 ++ [.headerRead audioFilePath]
      match getSampleRateOn Handle.Seek Handle.Read file with
      | (_, .error (.panic msg)) => { events := ev2 ++ [.crash msg], exit := 2 }
      | (_, .error (.error err)) =>
        { events := ev2 ++ [.fatal ("Failed to get sample rate: " ++ err)], exit := 1 }
      | (_, .ok sampleRate) =>
        let ev3 := ev2 ++ [.stdout (Println ["Sample Rate (Hz):", toString sampleRate])]
        let ev4 := ev3 ++ [.readFile audioFilePath]
        match ReadFile w.fs w.readFileFault audioFilePath with
        | .error err =>
          { events := ev4 ++ [.fatal ("Failed to read audio file: " ++ err)], exit := 1 }
        | .ok audioFileContent =>
          let ev5 := ev4 ++ [.newClient "chatkey.json"]
          match w.newClient with
          | some err =>
            { events := ev5 ++ [.fatal ("Failed to create client: " ++ err)], exit := 1 }
          | none =>
            let req := buildRequest sampleRate audioFileContent
            let ev6 := ev5 ++ [.recognize req]
            match w.recognize req with
            | some err =>
              { events := ev6 ++ [.fatal ("Failed to start long-running recognition: " ++ err)],
                exit := 1 }
            | none =>
              let ev7 := ev6 ++ [.wait]
              match w.wait req with
              | .error err =>
                { events := ev7 ++ [.fatal ("Failed to get long-running result: " ++ err)],
                  exit := 1 }
              | .ok result =>
                let ev8 := ev7 ++ [.stdout (Println [])]
                let ev9 := printResults ev8 result.Results
                let ev10 := ev9 ++ [.stdout (Println [])]
                let ev11 := ev10 ++ [.stdout (Println ["Time duration : ", w.elapsed])]
                { events := ev11 ++ [.closeClient, .closeFile audioFilePath], exit := 0 }

/-- The texts written to the standard output during a run, in order. -/
def stdoutOf : List Event → List String
  | [] => []
  | .stdout text :: rest => text :: stdoutOf rest
  | _ :: rest => stdoutOf rest

/-! ## The common beginnings of the runs -/

/-- The events of a run up to and including the call of `getSampleRate`. -/
def headerEvents (path : String) : List Event :=
  [.stdout (Println ["Audio file: ", path]), .openFile path, .headerRead path]

/-- The events of a run up to and including the call of `ReadFile`. -/
def readEvents (path : String) (sampleRate : Nat) : List Event :=
  headerEvents path
    ++ [.stdout (Println ["Sample Rate (Hz):", toString sampleRate]), .readFile path]

/-! ## Example inputs -/

/-- The function `binary.LittleEndian.PutUint32` as a list: the four bytes
of a 32-bit value, least significant first. -/
def putUint32 (v : Nat) : List Byte :=
  [Fin.ofNat (v % 256), Fin.ofNat (v / 2 ^ 8 % 256), Fin.ofNat (v / 2 ^ 16 % 256),
    Fin.ofNat (v / 2 ^ 24 % 256)]

/-- A file whose first 24 bytes are zero, followed by `field`, followed by
`tail`. -/
def wavLike (field tail : List Byte) : List Byte :=
  List.replicate 24 0 ++ field ++ tail

/-- A 44-byte header whose sample rate field is 16000, followed by three
bytes of audio. -/
def exampleWav : List Byte :=
  wavLike [0x80, 0x3E, 0, 0] (List.replicate 16 0 ++ [1, 2, 3])

/-- A run on the file `a.wav` with content `data`, in which every step
succeeds and the service returns `results`. -/
def worldOf (data : List Byte) (results : List SpeechRecognitionResult) : World :=
  { args := ["app", "a.wav"]
    fs := fun p => if p = "a.wav" then .regular data else .fails "no such file or directory"
    readFileFault := none
    newClient := none
    recognize := fun _ => none
    wait := fun _ => .ok { Results := results }
    elapsed := "1.5s" }

/-- The run in which the service returns one result group with the one
alternative `hello world` of confidence 0.95 (the `float32` 0x3F733333). -/
def helloWorld : World :=
  worldOf exampleWav [{ Alternatives := [{ Transcript := "hello world", Confidence := 0x3F733333 }] }]

/-! ## Facts about the little-endian decoding -/

theorem or_shift_eq_add (a b k : Nat) (ha : a < 2 ^ k) : a ||| b * 2 ^ k = a + b * 2 ^ k := by
  rw [Nat.mul_comm b, Nat.lor_comm, ← Nat.mul_add_lt_is_or ha]
  omega

theorem Uint32_four (b0 b1 b2 b3 : Byte) (rest : List Byte) :
    LittleEndian.Uint32 (b0 :: b1 :: b2 :: b3 :: rest)
      = some (b0.val + 256 * b1.val + 65536 * b2.val + 16777216 * b3.val) := by
  have h0 := b0.isLt
  have h1 := b1.isLt
  have h2 := b2.isLt
  have h3 := b3.isLt
  simp only [LittleEndian.Uint32, Nat.shiftLeft_eq]
  have e1 : (b1.val * 2 ^ 8) % 2 ^ 32 = b1.val * 2 ^ 8 := Nat.mod_eq_of_lt (by omega)
  have e2 : (b2.val * 2 ^ 16) % 2 ^ 32 = b2.val * 2 ^ 16 := Nat.mod_eq_of_lt (by omega)
  have e3 : (b3.val * 2 ^ 24) % 2 ^ 32 = b3.val * 2 ^ 24 := Nat.mod_eq_of_lt (by omega)
  rw [e1, e2, e3, or_shift_eq_add _ _ 8 (by omega), or_shift_eq_add _ _ 16 (by omega),
    or_shift_eq_add _ _ 24 (by omega)]
  congr 1
  omega

theorem drop24_take4 (data : List Byte) (h : 28 ≤ data.length) :
    (data.drop 24).take 4
      = [data.get ⟨24, by omega⟩, data.get ⟨25, by omega⟩, data.get ⟨26, by omega⟩,
          data.get ⟨27, by omega⟩] := by
  rw [List.drop_eq_getElem_cons (by omega : 24 < data.length),
    List.drop_eq_getElem_cons (by omega : 25 < data.length),
    List.drop_eq_getElem_cons (by omega : 26 < data.length),
    List.drop_eq_getElem_cons (by omega : 27 < data.length)]
  rfl

/-- On a file of at least 28 bytes `getSampleRate` returns the decoded field
and leaves the handle at position 28. -/
theorem getSampleRate_long (f : File) (h : 28 ≤ f.data.length) :
    getSampleRate f
      = ({ f with pos := 28 },
          .ok ((f.data.get ⟨24, by omega⟩).val + 256 * (f.data.get ⟨25, by omega⟩).val
            + 65536 * (f.data.get ⟨26, by omega⟩).val
            + 16777216 * (f.data.get ⟨27, by omega⟩).val)) := by
  simp only [getSampleRate, getSampleRateOn, File.Seek, File.Read, makeBytes]
  simp [drop24_take4 f.data h, Uint32_four]

/-- On a file of at most 24 bytes the read at offset 24 finds the end of the
file and `getSampleRate` returns the read error; the handle stays at 24. -/
theorem getSampleRate_eof (f : File) (h : f.data.length ≤ 24) :
    getSampleRate f
      = ({ f with pos := 24 }, .error (.error "failed to read sample rate bytes: EOF")) := by
  simp only [getSampleRate, getSampleRateOn, File.Seek, File.Read, makeBytes]
  have hd : List.drop 24 f.data = [] := List.drop_eq_nil_of_le h
  simp [hd, EOF]

/-- The call `getSampleRate` on a file with the four bytes `b0 .. b3` at
offset 24. -/
theorem getSampleRate_field (name : String) (pre tail : List Byte) (b0 b1 b2 b3 : Byte)
    (pos : Nat) (hpre : pre.length = 24) :
    getSampleRate ⟨name, pre ++ b0 :: b1 :: b2 :: b3 :: tail, pos⟩
      = (⟨name, pre ++ b0 :: b1 :: b2 :: b3 :: tail, 28⟩,
          .ok (b0.val + 256 * b1.val + 65536 * b2.val + 16777216 * b3.val)) := by
  simp only [getSampleRate, getSampleRateOn, File.Seek, File.Read, makeBytes]
  have hd : List.drop 24 (pre ++ b0 :: b1 :: b2 :: b3 :: tail) = b0 :: b1 :: b2 :: b3 :: tail :=
    List.drop_left' hpre
  simp [hd, Uint32_four]

/-- The call `Read` returns a buffer of the length it was given. -/
theorem Read_buffer_length (f : File) (b : List Byte) : (f.Read b).2.1.length = b.length := by
  simp only [File.Read]
  split_ifs
  · rfl
  · rfl
  · simp only [List.length_append, List.length_drop, List.length_take]
    omega

theorem Uint32_of_length_four (b : List Byte) (h : b.length = 4) :
    ∃ v, LittleEndian.Uint32 b = some v := by
  match b, h with
  | [b0, b1, b2, b3], _ => exact ⟨_, rfl⟩

/-- The function `getSampleRate` never panics: the buffer it decodes has
four bytes. -/
theorem getSampleRate_no_panic (f : File) (msg : String) :
    (getSampleRate f).2 ≠ .error (.panic msg) := by
  have hseek : f.Seek 24 0 = ({ f with pos := 24 }, .ok 24) := by
    simp [File.Seek]
  simp only [getSampleRate, getSampleRateOn, hseek]
  have hlen := Read_buffer_length { f with pos := 24 } (makeBytes 4)
  generalize File.Read { f with pos := 24 } (makeBytes 4) = r at hlen
  obtain ⟨f2, buf, res⟩ := r
  cases res with
  | error err => simp
  | ok n =>
    obtain ⟨v, hv⟩ := Uint32_of_length_four buf (by simpa [makeBytes] using hlen)
    simp [hv]

/-- A 32-bit value written little-endian at offset 24 is what
`getSampleRate` returns. -/
theorem getSampleRate_decodes_field_value (v : Nat) (name : String) (pre tail : List Byte)
    (pos : Nat) (hv : v < 2 ^ 32) (hpre : pre.length = 24) :
    (getSampleRate ⟨name, pre ++ putUint32 v ++ tail, pos⟩).2 = .ok v := by
  have hshape : pre ++ putUint32 v ++ tail
      = pre ++ (Fin.ofNat (v % 256) : Byte) :: Fin.ofNat (v / 2 ^ 8 % 256)
          :: Fin.ofNat (v / 2 ^ 16 % 256) :: Fin.ofNat (v / 2 ^ 24 % 256) :: tail := by
    simp [putUint32]
  rw [hshape, getSampleRate_field name pre tail _ _ _ _ pos hpre]
  simp only [Fin.ofNat]
  congr 1
  omega

/-! ## Claims about getSampleRate -/

/-- C1: on every file of at least 28 bytes, whatever the read position of
the handle, `getSampleRate` succeeds and returns
`b24 + 256*b25 + 65536*b26 + 16777216*b27`, a value below `2 ^ 32`; and every
32-bit value `v` written little-endian at offset 24 is returned as `v`. -/
theorem getSampleRate_decodes_little_endian :
    (∀ (f : File) (h : 28 ≤ f.data.length),
      (getSampleRate f).2
          = .ok ((f.data.get ⟨24, by omega⟩).val + 256 * (f.data.get ⟨25, by omega⟩).val
              + 65536 * (f.data.get ⟨26, by omega⟩).val
              + 16777216 * (f.data.get ⟨27, by omega⟩).val)
        ∧ (f.data.get ⟨24, by omega⟩).val + 256 * (f.data.get ⟨25, by omega⟩).val
              + 65536 * (f.data.get ⟨26, by omega⟩).val
              + 16777216 * (f.data.get ⟨27, by omega⟩).val < 2 ^ 32)
    ∧ (∀ (v : Nat) (name : String) (pre tail : List Byte) (pos : Nat),
        v < 2 ^ 32 → pre.length = 24 →
          (getSampleRate ⟨name, pre ++ putUint32 v ++ tail, pos⟩).2 = .ok v) := by
  refine ⟨fun f h => ⟨by rw [getSampleRate_long f h], ?_⟩, ?_⟩
  · have h0 := (f.data.get ⟨24, by omega⟩).isLt
    have h1 := (f.data.get ⟨25, by omega⟩).isLt
    have h2 := (f.data.get ⟨26, by omega⟩).isLt
    have h3 := (f.data.get ⟨27, by omega⟩).isLt
    omega
  · intro v name pre tail pos hv hpre
    exact getSampleRate_decodes_field_value v name pre tail pos hv hpre

/-- The witness of C1: a 31-byte file with the bytes 0x44 0xAC 0x00 0x00 at
offset 24, read through a handle at position 7, gives 44100; and the value
0xFFFFFFFF written at offset 24 is read back. -/
theorem getSampleRate_decodes_little_endian_witness :
    (getSampleRate ⟨"a.wav", wavLike [0x44, 0xAC, 0, 0] [1, 2, 3], 7⟩).2 = .ok 44100
    ∧ (getSampleRate ⟨"a.wav", List.replicate 24 9 ++ putUint32 0xFFFFFFFF ++ [], 0⟩).2
        = .ok 0xFFFFFFFF :=
  ⟨(getSampleRate_decodes_little_endian.1
      ⟨"a.wav", wavLike [0x44, 0xAC, 0, 0] [1, 2, 3], 7⟩ (by decide)).1,
    getSampleRate_decodes_little_endian.2 0xFFFFFFFF "a.wav" (List.replicate 24 9) [] 0
      (by decide) (by decide)⟩

/-- C2 (the code departs from it): on files of 25, 26 and 27 bytes the read
at offset 24 gets 1, 2 and 3 bytes without an error, the count is discarded,
and `getSampleRate` returns the value of the zero-padded buffer instead of
an error. -/
theorem getSampleRate_short_read_returns_padded_value :
    (getSampleRate ⟨"a.wav", wavLike [0x44] [], 0⟩).2 = .ok 0x44
    ∧ (getSampleRate ⟨"a.wav", wavLike [0x44, 0xAC] [], 0⟩).2 = .ok 0xAC44
    ∧ (getSampleRate ⟨"a.wav", wavLike [0x44, 0xAC, 0x01] [], 0⟩).2 = .ok 0x01AC44
    ∧ (wavLike [0x44] []).length = 25
    ∧ (wavLike [0x44, 0xAC] []).length = 26
    ∧ (wavLike [0x44, 0xAC, 0x01] []).length = 27 := by
  decide

/-- C9: two files of at least 28 bytes that agree on the bytes at offsets
24 to 27 give the same result of `getSampleRate`, and that result is a
value, not an error, whatever the other bytes, the lengths, the names and
the read positions are. -/
theorem getSampleRate_depends_only_on_field (f g : File) (hf : 28 ≤ f.data.length)
    (hg : 28 ≤ g.data.length)
    (hagree : ∀ i : Nat, 24 ≤ i → i < 28 → f.data[i]? = g.data[i]?) :
    (getSampleRate f).2 = (getSampleRate g).2 ∧ ∃ v, (getSampleRate f).2 = .ok v := by
  rw [getSampleRate_long f hf, getSampleRate_long g hg]
  have e : ∀ i : Nat, 24 ≤ i → (hi : i < 28) →
      f.data.get ⟨i, by omega⟩ = g.data.get ⟨i, by omega⟩ := by
    intro i h24 hi
    have h := hagree i h24 hi
    rw [List.getElem?_eq_getElem (by omega), List.getElem?_eq_getElem (by omega)] at h
    simpa using h
  refine ⟨?_, _, rfl⟩
  simp only [e 24 (by omega) (by omega), e 25 (by omega) (by omega),
    e 26 (by omega) (by omega), e 27 (by omega) (by omega)]

/-- The witness of C9: a file that starts with `RIFF` and a file of other
bytes and another length, with the same four bytes at offset 24. -/
theorem getSampleRate_depends_only_on_field_witness :
    (getSampleRate ⟨"a.wav", [0x52, 0x49, 0x46, 0x46] ++ List.replicate 20 0
        ++ [0x80, 0x3E, 0, 0] ++ List.replicate 16 0, 0⟩).2
      = (getSampleRate ⟨"b.txt", List.replicate 24 7 ++ [0x80, 0x3E, 0, 0], 5⟩).2
    ∧ ∃ v, (getSampleRate ⟨"a.wav", [0x52, 0x49, 0x46, 0x46] ++ List.replicate 20 0
        ++ [0x80, 0x3E, 0, 0] ++ List.replicate 16 0, 0⟩).2 = .ok v :=
  getSampleRate_depends_only_on_field
    ⟨"a.wav", [0x52, 0x49, 0x46, 0x46] ++ List.replicate 20 0
        ++ [0x80, 0x3E, 0, 0] ++ List.replicate 16 0, 0⟩
    ⟨"b.txt", List.replicate 24 7 ++ [0x80, 0x3E, 0, 0], 5⟩
    (by decide) (by decide)
    (by
      intro i h24 hi
      have hcases : i = 24 ∨ i = 25 ∨ i = 26 ∨ i = 27 := by omega
      rcases hcases with h | h | h | h <;> subst h <;> decide)

/-- C10: after a call of `getSampleRate` on a file of at least 28 bytes the
call has succeeded, the read position of the handle is 28, which is not 0
and is not the position before the call unless that was 28, and the name and
the bytes of the file are unchanged. -/
theorem getSampleRate_leaves_position_28 (f : File) (h : 28 ≤ f.data.length) :
    (∃ v, (getSampleRate f).2 = .ok v)
    ∧ (getSampleRate f).1.pos = 28
    ∧ (getSampleRate f).1.pos ≠ 0
    ∧ (f.pos ≠ 28 → (getSampleRate f).1.pos ≠ f.pos)
    ∧ (getSampleRate f).1.data = f.data
    ∧ (getSampleRate f).1.name = f.name := by
  rw [getSampleRate_long f h]
  refine ⟨⟨_, rfl⟩, rfl, by simp, fun hne => ?_, rfl, rfl⟩
  simpa using Ne.symm hne

/-- The witness of C10: a 44-byte header read through a handle at
position 0. -/
theorem getSampleRate_leaves_position_28_witness :
    (getSampleRate ⟨"a.wav", wavLike [0x80, 0x3E, 0, 0] (List.replicate 16 0), 0⟩).1.pos = 28 :=
  (getSampleRate_leaves_position_28
    ⟨"a.wav", wavLike [0x80, 0x3E, 0, 0] (List.replicate 16 0), 0⟩ (by decide)).2.1

/-! ## Facts about the steps of main -/

theorem length_makeBytes (n : Nat) : (makeBytes n).length = n := by
  simp [makeBytes]

/-- A `Read` at or beyond the end of the file reports `io.EOF`. -/
theorem Read_at_end (f : File) (b : List Byte) (hb : b.length ≠ 0)
    (h : f.data.length ≤ f.pos) : f.Read b = (f, b, .error EOF) := by
  have hd : List.drop f.pos f.data = [] := List.drop_eq_nil_of_le h
  simp [File.Read, hb, hd]

/-- A `Read` before the end of the file returns the next bytes, as many as
the buffer holds or as the file has left. -/
theorem Read_before_end (f : File) (b : List Byte) (hb : b.length ≠ 0)
    (h : f.pos < f.data.length) :
    f.Read b
      = ({ f with pos := f.pos + min b.length (f.data.length - f.pos) },
          (f.data.drop f.pos).take b.length ++ b.drop (min b.length (f.data.length - f.pos)),
          .ok (min b.length (f.data.length - f.pos))) := by
  have hgot : ¬ (min b.length (f.data.length - f.pos) = 0) := by omega
  simp only [File.Read, hb, if_false, List.length_take, List.length_drop, hgot]

theorem readLoop_succ (fuel : Nat) (f : File) (acc : List Byte) :
    readLoop (fuel + 1) f acc
      = match f.Read (makeBytes 512) with
        | (_, _, .error err) => if err = EOF then .ok acc else .error err
        | (f1, b, .ok n) => readLoop fuel f1 (acc ++ b.take n) := by
  rfl

/-- The read loop returns what it had accumulated followed by the bytes from
the read position to the end of the file, when the fuel exceeds the number
of those bytes. -/
theorem readLoop_reads_rest (fuel : Nat) :
    ∀ (f : File) (acc : List Byte), f.data.length - f.pos < fuel →
      readLoop fuel f acc = .ok (acc ++ f.data.drop f.pos) := by
  induction fuel with
  | zero => intro f acc h; omega
  | succ fuel ih =>
    intro f acc h
    rw [readLoop_succ]
    by_cases hrest : f.data.length ≤ f.pos
    · have hd : List.drop f.pos f.data = [] := List.drop_eq_nil_of_le hrest
      simp [Read_at_end f (makeBytes 512) (by rw [length_makeBytes]; decide) hrest, hd]
    · rw [Read_before_end f (makeBytes 512) (by rw [length_makeBytes]; decide) (by omega)]
      simp only [length_makeBytes]
      rw [ih _ _ (by simp only []; omega)]
      simp only [List.append_assoc]
      congr 2
      have hk : (List.take 512 (List.drop f.pos f.data)).length
          = min 512 (f.data.length - f.pos) := by
        rw [List.length_take, List.length_drop]
      rw [← hk, List.take_left, ← List.drop_drop, hk]
      by_cases hbig : 512 ≤ f.data.length - f.pos
      · rw [Nat.min_eq_left hbig]
        exact List.take_append_drop 512 _
      · rw [Nat.min_eq_right (by omega)]
        have hnil : List.drop (f.data.length - f.pos) (List.drop f.pos f.data) = [] :=
          List.drop_eq_nil_of_le (by rw [List.length_drop])
        rw [hnil, List.append_nil]
        exact List.take_of_length_le (by rw [List.length_drop]; omega)

/-- Without an operating-system failure `ReadFile` returns every byte of the
file. -/
theorem ReadFile_whole (fs : String → Node) (name : String) (data : List Byte)
    (h : fs name = .regular data) : ReadFile fs none name = .ok data := by
  simp only [ReadFile, osOpen, h]
  rw [readLoop_reads_rest _ _ _ (by simp)]
  simp

/-- Reading on through the handle that `getSampleRate` has used would give
the file without its first 28 bytes: the read position matters to a read
through the same handle. -/
theorem readLoop_on_moved_handle (f : File) (h : 28 ≤ f.data.length) :
    readLoop (f.data.length + 1) (getSampleRate f).1 [] = .ok (f.data.drop 28) := by
  rw [getSampleRate_long f h, readLoop_reads_rest _ _ _ (by simp only []; omega)]
  simp

theorem printAlternatives_eq (alts : List SpeechRecognitionAlternative) :
    ∀ out : List Event,
      printAlternatives out alts = out ++ alts.map (fun alt => Event.stdout (transcriptLine alt)) := by
  induction alts with
  | nil => intro out; simp [printAlternatives]
  | cons alt rest ih => intro out; simp [printAlternatives, ih]

theorem printResults_eq (results : List SpeechRecognitionResult) :
    ∀ out : List Event,
      printResults out results
        = out ++ (results.flatMap (fun r => r.Alternatives)).map
            (fun alt => Event.stdout (transcriptLine alt)) := by
  induction results with
  | nil => intro out; simp [printResults]
  | cons r rest ih => intro out; simp [printResults, ih, printAlternatives_eq]

theorem stdoutOf_append (a b : List Event) : stdoutOf (a ++ b) = stdoutOf a ++ stdoutOf b := by
  induction a with
  | nil => rfl
  | cons e rest ih => cases e <;> simp [stdoutOf, ih]

theorem stdoutOf_map_stdout {α : Type} (g : α → String) (l : List α) :
    stdoutOf (l.map (fun x => Event.stdout (g x))) = l.map g := by
  induction l with
  | nil => rfl
  | cons x rest ih => simp [stdoutOf, ih]

/-- On a handle on a regular file the body of `getSampleRate` is
`getSampleRate` on that file. -/
theorem getSampleRateOn_regular (f : File) :
    getSampleRateOn Handle.Seek Handle.Read (.regular f)
      = (.regular (getSampleRate f).1, (getSampleRate f).2) := by
  have hseek : f.Seek 24 0 = ({ f with pos := 24 }, .ok 24) := by
    simp [File.Seek]
  simp only [getSampleRate, getSampleRateOn, Handle.Seek, hseek]
  simp only [Handle.Read]
  generalize File.Read { f with pos := 24 } (makeBytes 4) = r
  obtain ⟨f2, buf, res⟩ := r
  cases res with
  | error err => rfl
  | ok n =>
    cases hu : LittleEndian.Uint32 buf with
    | none => simp [hu]
    | some u => simp [hu]

/-- On a handle on a directory the seek succeeds, the read fails with
`EISDIR`, and the body of `getSampleRate` returns the read error. -/
theorem getSampleRateOn_directory (name : String) (pos : Nat) :
    getSampleRateOn Handle.Seek Handle.Read (.directory name pos)
      = (.directory name 24,
          .error (.error ("failed to read sample rate bytes: "
            ++ ("read " ++ name ++ ": is a directory")))) := by
  simp [getSampleRateOn, Handle.Seek, Handle.Read, makeBytes]

/-- On a handle on a pipe the seek fails with `ESPIPE` and the body of
`getSampleRate` returns the seek error. -/
theorem getSampleRateOn_pipe (name : String) (stream : List Byte) :
    getSampleRateOn Handle.Seek Handle.Read (.pipe name stream)
      = (.pipe name stream,
          .error (.error ("failed to seek to sample rate: "
            ++ ("seek " ++ name ++ ": illegal seek")))) := by
  simp [getSampleRateOn, Handle.Seek]

/-- The body of `getSampleRate` never panics, on any kind of handle. -/
theorem getSampleRateOn_no_panic (h : Handle) (msg : String) :
    (getSampleRateOn Handle.Seek Handle.Read h).2 ≠ .error (.panic msg) := by
  cases h with
  | regular f =>
    rw [getSampleRateOn_regular]
    exact getSampleRate_no_panic f msg
  | directory name pos =>
    rw [getSampleRateOn_directory]
    simp
  | pipe name stream =>
    rw [getSampleRateOn_pipe]
    simp

/-! ## The runs of main, branch by branch -/

theorem main_no_argument (w : World) (h : w.args.length < 2) :
    main w = { events := [.stdout (Println ["No argument provided."])], exit := 0 } := by
  simp [main, h]

theorem main_open_fails (w : World) (prog path : String) (rest : List String)
    (err : String)
    (hargs : w.args = prog :: path :: rest) (hopen : osOpen w.fs path = .error err) :
    main w
      = { events := [.stdout (Println ["Audio file: ", path]), .openFile path,
            .fatal ("Failed to open WAV file: " ++ err)],
          exit := 1 } := by
  simp [main, hargs, hopen]

theorem main_header_fails (w : World) (prog path : String) (rest : List String)
    (file : Handle) (err : String)
    (hargs : w.args = prog :: path :: rest) (hopen : osOpen w.fs path = .ok file)
    (hsr : (getSampleRateOn Handle.Seek Handle.Read file).2 = .error (.error err)) :
    main w
      = { events := headerEvents path ++ [.fatal ("Failed to get sample rate: " ++ err)],
          exit := 1 } := by
  rcases hg : getSampleRateOn Handle.Seek Handle.Read file with ⟨f1, r⟩
  rw [hg] at hsr
  simp only at hsr
  subst hsr
  simp [main, hargs, hopen, hg, headerEvents]

theorem main_read_fails (w : World) (prog path : String) (rest : List String)
    (data : List Byte) (sr : Nat) (err : String)
    (hargs : w.args = prog :: path :: rest) (hfs : w.fs path = .regular data)
    (hsr : (getSampleRate ⟨path, data, 0⟩).2 = .ok sr)
    (hread : w.readFileFault = some err) :
    main w
      = { events := readEvents path sr ++ [.fatal ("Failed to read audio file: " ++ err)],
          exit := 1 } := by
  have hopen : osOpen w.fs path = .ok (.regular ⟨path, data, 0⟩) := by
    simp [osOpen, hfs]
  have hg : getSampleRateOn Handle.Seek Handle.Read (.regular ⟨path, data, 0⟩)
      = (.regular (getSampleRate ⟨path, data, 0⟩).1, .ok sr) := by
    rw [getSampleRateOn_regular, hsr]
  simp [main, hargs, hopen, hg, headerEvents, readEvents, ReadFile, hread]

theorem main_client_fails (w : World) (prog path : String) (rest : List String)
    (data : List Byte) (sr : Nat) (err : String)
    (hargs : w.args = prog :: path :: rest) (hfs : w.fs path = .regular data)
    (hsr : (getSampleRate ⟨path, data, 0⟩).2 = .ok sr)
    (hread : w.readFileFault = none) (hclient : w.newClient = some err) :
    main w
      = { events := readEvents path sr
            ++ [.newClient "chatkey.json", .fatal ("Failed to create client: " ++ err)],
          exit := 1 } := by
  have hopen : osOpen w.fs path = .ok (.regular ⟨path, data, 0⟩) := by
    simp [osOpen, hfs]
  have hg : getSampleRateOn Handle.Seek Handle.Read (.regular ⟨path, data, 0⟩)
      = (.regular (getSampleRate ⟨path, data, 0⟩).1, .ok sr) := by
    rw [getSampleRateOn_regular, hsr]
  have hrf := ReadFile_whole w.fs path data hfs
  simp [main, hargs, hopen, hg, headerEvents, readEvents, hread, hrf, hclient]

theorem main_recognize_fails (w : World) (prog path : String) (rest : List String)
    (data : List Byte) (sr : Nat) (err : String)
    (hargs : w.args = prog :: path :: rest) (hfs : w.fs path = .regular data)
    (hsr : (getSampleRate ⟨path, data, 0⟩).2 = .ok sr)
    (hread : w.readFileFault = none) (hclient : w.newClient = none)
    (hrec : w.recognize (buildRequest sr data) = some err) :
    main w
      = { events := readEvents path sr
            ++ [.newClient "chatkey.json", .recognize (buildRequest sr data),
                .fatal ("Failed to start long-running recognition: " ++ err)],
          exit := 1 } := by
  have hopen : osOpen w.fs path = .ok (.regular ⟨path, data, 0⟩) := by
    simp [osOpen, hfs]
  have hg : getSampleRateOn Handle.Seek Handle.Read (.regular ⟨path, data, 0⟩)
      = (.regular (getSampleRate ⟨path, data, 0⟩).1, .ok sr) := by
    rw [getSampleRateOn_regular, hsr]
  have hrf := ReadFile_whole w.fs path data hfs
  simp [main, hargs, hopen, hg, headerEvents, readEvents, hread, hrf, hclient, hrec]

theorem main_wait_fails (w : World) (prog path : String) (rest : List String)
    (data : List Byte) (sr : Nat) (err : String)
    (hargs : w.args = prog :: path :: rest) (hfs : w.fs path = .regular data)
    (hsr : (getSampleRate ⟨path, data, 0⟩).2 = .ok sr)
    (hread : w.readFileFault = none) (hclient : w.newClient = none)
    (hrec : w.recognize (buildRequest sr data) = none)
    (hwait : w.wait (buildRequest sr data) = .error err) :
    main w
      = { events := readEvents path sr
            ++ [.newClient "chatkey.json", .recognize (buildRequest sr data), .wait,
                .fatal ("Failed to get long-running result: " ++ err)],
          exit := 1 } := by
  have hopen : osOpen w.fs path = .ok (.regular ⟨path, data, 0⟩) := by
    simp [osOpen, hfs]
  have hg : getSampleRateOn Handle.Seek Handle.Read (.regular ⟨path, data, 0⟩)
      = (.regular (getSampleRate ⟨path, data, 0⟩).1, .ok sr) := by
    rw [getSampleRateOn_regular, hsr]
  have hrf := ReadFile_whole w.fs path data hfs
  simp [main, hargs, hopen, hg, headerEvents, readEvents, hread, hrf, hclient, hrec,
    hwait]

theorem main_succeeds (w : World) (prog path : String) (rest : List String)
    (data : List Byte) (sr : Nat) (result : LongRunningRecognizeResponse)
    (hargs : w.args = prog :: path :: rest) (hfs : w.fs path = .regular data)
    (hsr : (getSampleRate ⟨path, data, 0⟩).2 = .ok sr)
    (hread : w.readFileFault = none) (hclient : w.newClient = none)
    (hrec : w.recognize (buildRequest sr data) = none)
    (hwait : w.wait (buildRequest sr data) = .ok result) :
    main w
      = { events := readEvents path sr
            ++ [.newClient "chatkey.json", .recognize (buildRequest sr data), .wait,
                .stdout "\n"]
            ++ (result.Results.flatMap (fun r => r.Alternatives)).map
                (fun alt => Event.stdout (transcriptLine alt))
            ++ [.stdout "\n", .stdout (Println ["Time duration : ", w.elapsed]),
                .closeClient, .closeFile path],
          exit := 0 } := by
  have hopen : osOpen w.fs path = .ok (.regular ⟨path, data, 0⟩) := by
    simp [osOpen, hfs]
  have hg : getSampleRateOn Handle.Seek Handle.Read (.regular ⟨path, data, 0⟩)
      = (.regular (getSampleRate ⟨path, data, 0⟩).1, .ok sr) := by
    rw [getSampleRateOn_regular, hsr]
  have hrf := ReadFile_whole w.fs path data hfs
  have hnl : Println [] = "\n" := by decide
  simp [main, hargs, hopen, hg, headerEvents, readEvents, hread, hrf, hclient, hrec,
    hwait, printResults_eq, hnl]

/-- Every run of `main` has one of eight shapes: no argument, a failure of
one of the six steps, or success. -/
theorem main_cases (w : World) :
    (w.args.length < 2
      ∧ main w = { events := [.stdout (Println ["No argument provided."])], exit := 0 })
    ∨ (∃ prog path rest err, w.args = prog :: path :: rest ∧ osOpen w.fs path = .error err
        ∧ main w
          = { events := [.stdout (Println ["Audio file: ", path]), .openFile path,
                .fatal ("Failed to open WAV file: " ++ err)],
              exit := 1 })
    ∨ (∃ prog path rest file err, w.args = prog :: path :: rest
        ∧ osOpen w.fs path = .ok file
        ∧ (getSampleRateOn Handle.Seek Handle.Read file).2 = .error (.error err)
        ∧ main w
          = { events := headerEvents path ++ [.fatal ("Failed to get sample rate: " ++ err)],
              exit := 1 })
    ∨ (∃ prog path rest data sr err, w.args = prog :: path :: rest
        ∧ w.fs path = .regular data
        ∧ (getSampleRate ⟨path, data, 0⟩).2 = .ok sr
        ∧ main w
          = { events := readEvents path sr
                ++ [.fatal ("Failed to read audio file: " ++ err)],
              exit := 1 })
    ∨ (∃ prog path rest data sr err, w.args = prog :: path :: rest
        ∧ w.fs path = .regular data
        ∧ (getSampleRate ⟨path, data, 0⟩).2 = .ok sr
        ∧ main w
          = { events := readEvents path sr
                ++ [.newClient "chatkey.json", .fatal ("Failed to create client: " ++ err)],
              exit := 1 })
    ∨ (∃ prog path rest data sr err, w.args = prog :: path :: rest
        ∧ w.fs path = .regular data
        ∧ (getSampleRate ⟨path, data, 0⟩).2 = .ok sr
        ∧ main w
          = { events := readEvents path sr
                ++ [.newClient "chatkey.json", .recognize (buildRequest sr data),
                    .fatal ("Failed to start long-running recognition: " ++ err)],
              exit := 1 })
    ∨ (∃ prog path rest data sr err, w.args = prog :: path :: rest
        ∧ w.fs path = .regular data
        ∧ (getSampleRate ⟨path, data, 0⟩).2 = .ok sr
        ∧ main w
          = { events := readEvents path sr
                ++ [.newClient "chatkey.json", .recognize (buildRequest sr data), .wait,
                    .fatal ("Failed to get long-running result: " ++ err)],
              exit := 1 })
    ∨ (∃ prog path rest data sr result, w.args = prog :: path :: rest
        ∧ w.fs path = .regular data
        ∧ (getSampleRate ⟨path, data, 0⟩).2 = .ok sr
        ∧ w.wait (buildRequest sr data) = .ok result
        ∧ main w
          = { events := readEvents path sr
                ++ [.newClient "chatkey.json", .recognize (buildRequest sr data), .wait,
                    .stdout "\n"]
                ++ (result.Results.flatMap (fun r => r.Alternatives)).map
                    (fun alt => Event.stdout (transcriptLine alt))
                ++ [.stdout "\n", .stdout (Println ["Time duration : ", w.elapsed]),
                    .closeClient, .closeFile path],
              exit := 0 }) := by
  by_cases hlen : w.args.length < 2
  · exact Or.inl ⟨hlen, main_no_argument w hlen⟩
  right
  obtain ⟨prog, path, rest, hargs⟩ : ∃ prog path rest, w.args = prog :: path :: rest := by
    match hw : w.args with
    | [] => simp [hw] at hlen
    | [_] => simp [hw] at hlen
    | prog :: path :: rest => exact ⟨prog, path, rest, rfl⟩
  cases hfs : w.fs path with
  | fails errno =>
    have hopen : osOpen w.fs path = .error ("open " ++ path ++ ": " ++ errno) := by
      simp [osOpen, hfs]
    exact Or.inl ⟨prog, path, rest, _, hargs, hopen,
      main_open_fails w prog path rest _ hargs hopen⟩
  | directory =>
    have hopen : osOpen w.fs path = .ok (.directory path 0) := by
      simp [osOpen, hfs]
    have hsr := congrArg Prod.snd (getSampleRateOn_directory path 0)
    exact Or.inr (Or.inl ⟨prog, path, rest, _, _, hargs, hopen, hsr,
      main_header_fails w prog path rest _ _ hargs hopen hsr⟩)
  | pipe stream =>
    have hopen : osOpen w.fs path = .ok (.pipe path stream) := by
      simp [osOpen, hfs]
    have hsr := congrArg Prod.snd (getSampleRateOn_pipe path stream)
    exact Or.inr (Or.inl ⟨prog, path, rest, _, _, hargs, hopen, hsr,
      main_header_fails w prog path rest _ _ hargs hopen hsr⟩)
  | regular data =>
  right
  have hopen : osOpen w.fs path = .ok (.regular ⟨path, data, 0⟩) := by
    simp [osOpen, hfs]
  cases hsr : (getSampleRate ⟨path, data, 0⟩).2 with
  | error e =>
    cases e with
    | panic msg => exact absurd hsr (getSampleRate_no_panic _ msg)
    | error err =>
      have hsr1 : (getSampleRateOn Handle.Seek Handle.Read (.regular ⟨path, data, 0⟩)).2
          = .error (.error err) := by
        rw [getSampleRateOn_regular, hsr]
      exact Or.inl ⟨prog, path, rest, _, err, hargs, hopen, hsr1,
        main_header_fails w prog path rest _ err hargs hopen hsr1⟩
  | ok sr =>
  right
  cases hread : w.readFileFault with
  | some err =>
    exact Or.inl ⟨prog, path, rest, data, sr, err, hargs, hfs, hsr,
      main_read_fails w prog path rest data sr err hargs hfs hsr hread⟩
  | none =>
  right
  cases hclient : w.newClient with
  | some err =>
    exact Or.inl ⟨prog, path, rest, data, sr, err, hargs, hfs, hsr,
      main_client_fails w prog path rest data sr err hargs hfs hsr hread hclient⟩
  | none =>
  right
  cases hrec : w.recognize (buildRequest sr data) with
  | some err =>
    exact Or.inl ⟨prog, path, rest, data, sr, err, hargs, hfs, hsr,
      main_recognize_fails w prog path rest data sr err hargs hfs hsr hread hclient hrec⟩
  | none =>
  right
  cases hwait : w.wait (buildRequest sr data) with
  | error err =>
    exact Or.inl ⟨prog, path, rest, data, sr, err, hargs, hfs, hsr,
      main_wait_fails w prog path rest data sr err hargs hfs hsr hread hclient hrec hwait⟩
  | ok result =>
    exact Or.inr ⟨prog, path, rest, data, sr, result, hargs, hfs, hsr, hwait,
      main_succeeds w prog path rest data sr result hargs hfs hsr hread hclient hrec hwait⟩

/-- Every recognition request that a run sends is the request built from the
parsed sample rate and the whole content of the file named by the first
argument. -/
theorem main_recognize_event (w : World) (req : LongRunningRecognizeRequest)
    (h : Event.recognize req ∈ (main w).events) :
    ∃ prog path rest data sr, w.args = prog :: path :: rest ∧ w.fs path = .regular data
      ∧ (getSampleRate ⟨path, data, 0⟩).2 = .ok sr ∧ req = buildRequest sr data := by
  rcases main_cases w with ⟨_, hm⟩ | ⟨_, _, _, _, _, _, hm⟩ | ⟨_, _, _, _, _, _, _, _, hm⟩
    | ⟨_, _, _, _, _, _, _, _, _, hm⟩ | ⟨_, _, _, _, _, _, _, _, _, hm⟩
    | ⟨prog, path, rest, data, sr, _, hargs, hfs, hsr, hm⟩
    | ⟨prog, path, rest, data, sr, _, hargs, hfs, hsr, hm⟩
    | ⟨prog, path, rest, data, sr, _, hargs, hfs, hsr, _, hm⟩
  all_goals rw [hm] at h
  all_goals simp [headerEvents, readEvents] at h
  all_goals exact ⟨prog, path, rest, data, sr, hargs, hfs, hsr, h⟩

theorem Uint32_lt (b : List Byte) (v : Nat) (h : LittleEndian.Uint32 b = some v) :
    v < 2 ^ 32 := by
  match b, h with
  | b0 :: b1 :: b2 :: b3 :: _, h =>
    simp only [LittleEndian.Uint32, Option.some.injEq] at h
    rw [← h]
    exact Nat.mod_lt _ (by decide)

/-- A value returned by `getSampleRate` is an unsigned 32-bit value. -/
theorem getSampleRate_lt (f : File) (v : Nat) (h : (getSampleRate f).2 = .ok v) :
    v < 2 ^ 32 := by
  have hseek : f.Seek 24 0 = ({ f with pos := 24 }, .ok 24) := by
    simp [File.Seek]
  simp only [getSampleRate, getSampleRateOn, hseek] at h
  generalize File.Read { f with pos := 24 } (makeBytes 4) = r at h
  obtain ⟨f2, buf, res⟩ := r
  cases res with
  | error err => simp at h
  | ok n =>
    cases hu : LittleEndian.Uint32 buf with
    | none => simp [hu] at h
    | some u =>
      simp [hu] at h
      rw [← h]
      exact Uint32_lt buf u hu

/-- Once the sample rate is parsed, the content read and the client created,
the run sends the request built from them. -/
theorem readFile_whole_request (w : World) (prog path : String) (rest : List String)
    (data : List Byte) (sr : Nat)
    (hargs : w.args = prog :: path :: rest) (hfs : w.fs path = .regular data)
    (hsr : (getSampleRate ⟨path, data, 0⟩).2 = .ok sr)
    (hread : w.readFileFault = none) (hclient : w.newClient = none) :
    Event.recognize (buildRequest sr data) ∈ (main w).events := by
  cases hrec : w.recognize (buildRequest sr data) with
  | some err =>
    rw [main_recognize_fails w prog path rest data sr err hargs hfs hsr hread hclient hrec]
    simp
  | none =>
    cases hwait : w.wait (buildRequest sr data) with
    | error err =>
      rw [main_wait_fails w prog path rest data sr err hargs hfs hsr hread hclient hrec
        hwait]
      simp
    | ok result =>
      rw [main_succeeds w prog path rest data sr result hargs hfs hsr hread hclient hrec
        hwait]
      simp

/-! ## Facts about the verb %.2f -/

theorem twoDigits_eq : ∀ n : Fin 100, twoDigits n.val = toString (n.val / 10) ++ toString (n.val % 10) := by
  decide

theorem toString_digit : ∀ d : Fin 10,
    toString d.val = String.singleton (Nat.digitChar d.val)
      ∧ (Nat.digitChar d.val).isDigit = true := by
  decide

theorem round_half_even (N den : Nat) (hden : 0 < den) :
    |(N : ℚ) / den - ((if den < 2 * (N % den) ∨ (2 * (N % den) = den ∧ N / den % 2 = 1)
        then N / den + 1 else N / den : Nat) : ℚ)| ≤ 1 / 2
    ∧ (|(N : ℚ) / den - ((if den < 2 * (N % den) ∨ (2 * (N % den) = den ∧ N / den % 2 = 1)
        then N / den + 1 else N / den : Nat) : ℚ)| = 1 / 2 →
        (if den < 2 * (N % den) ∨ (2 * (N % den) = den ∧ N / den % 2 = 1)
        then N / den + 1 else N / den) % 2 = 0) := by
  have hd : (0 : ℚ) < den := by exact_mod_cast hden
  have hN : (N : ℚ) = den * (N / den : Nat) + (N % den : Nat) := by
    exact_mod_cast (Nat.div_add_mod N den).symm
  have hr : N % den < den := Nat.mod_lt _ hden
  generalize N / den = q at *
  generalize N % den = r at *
  have hx : ∀ h : ℚ, (N : ℚ) / den - h = (den * q + r - h * den) / den := by
    intro h; rw [hN]; field_simp; ring
  split_ifs with hc
  · have hle : den ≤ 2 * r := by omega
    have hleq : (den : ℚ) ≤ 2 * r := by exact_mod_cast hle
    have hrq : (r : ℚ) < den := by exact_mod_cast hr
    rw [hx]
    push_cast
    have e1 : ((den : ℚ) * q + r - (q + 1) * den) / den = -((den - r) / den) := by
      field_simp; ring
    rw [e1, abs_neg, abs_of_nonneg (div_nonneg (by linarith) hd.le)]
    constructor
    · rw [div_le_iff₀ hd]; linarith
    · intro heq
      rw [div_eq_iff hd.ne'] at heq
      have : (2 * r : ℚ) = den := by linarith
      have h2 : 2 * r = den := by exact_mod_cast this
      omega
  · have hle : 2 * r ≤ den := by omega
    have hleq : (2 * r : ℚ) ≤ den := by exact_mod_cast hle
    rw [hx]
    have e1 : ((den : ℚ) * q + r - q * den) / den = r / den := by
      field_simp; ring
    rw [e1, abs_of_nonneg (div_nonneg (by positivity) hd.le)]
    constructor
    · rw [div_le_iff₀ hd]; linarith
    · intro heq
      rw [div_eq_iff hd.ne'] at heq
      have : (2 * r : ℚ) = den := by linarith
      have h2 : 2 * r = den := by exact_mod_cast this
      by_contra hodd
      exact hc (Or.inr ⟨h2, by omega⟩)

theorem float32_hundredths (bits : Nat) (hfin : bits / 2 ^ 23 % 256 ≠ 255) :
    ∃ N den : Nat, 0 < den ∧ (N : ℚ) / den = 100 * float32Abs bits
      ∧ fmtFloat32 bits
        = (if bits / 2 ^ 31 % 2 = 1 then "-" else "")
          ++ toString ((if den < 2 * (N % den) ∨ (2 * (N % den) = den ∧ N / den % 2 = 1)
              then N / den + 1 else N / den) / 100) ++ "."
          ++ twoDigits ((if den < 2 * (N % den) ∨ (2 * (N % den) = den ∧ N / den % 2 = 1)
              then N / den + 1 else N / den) % 100) := by
  have he : bits / 2 ^ 23 % 256 < 256 := Nat.mod_lt _ (by decide)
  generalize hE : bits / 2 ^ 23 % 256 = e at hfin he
  by_cases h0 : e = 0
  · refine ⟨bits % 2 ^ 23 * 100, 2 ^ 149, by positivity, ?_, ?_⟩
    · simp only [float32Abs, hE, h0, if_true]
      push_cast
      ring
    · simp only [fmtFloat32, hE, h0]
      simp
  · by_cases hbig : 150 ≤ e
    · refine ⟨(bits % 2 ^ 23 + 2 ^ 23) * 100 * 2 ^ (e - 150), 1, by decide, ?_, ?_⟩
      · simp only [float32Abs, hE, h0, if_false]
        have hp : (2 : ℚ) ^ e = 2 ^ 150 * 2 ^ (e - 150) := by
          rw [← pow_add]; congr 1; omega
        rw [hp]
        push_cast
        field_simp
        ring
      · have h1 : (0 : Int) ≤ (e : Int) - 150 := by omega
        have h2 : ((e : Int) - 150).toNat = e - 150 := by omega
        simp only [fmtFloat32, hE, h0, if_false, h1, if_true, h2]
        simp [hfin]
    · refine ⟨(bits % 2 ^ 23 + 2 ^ 23) * 100, 2 ^ (150 - e), by positivity, ?_, ?_⟩
      · simp only [float32Abs, hE, h0, if_false]
        have hp : (2 : ℚ) ^ e * 2 ^ (150 - e) = 2 ^ 150 := by
          rw [← pow_add]; congr 1; omega
        rw [div_eq_iff (by positivity)]
        push_cast
        have key : ∀ f : ℚ, (f + 8388608) * 100
            = 100 * ((1 + f / 2 ^ 23) * 2 ^ e / 2 ^ 127) * 2 ^ (150 - e) := by
          intro f
          have hre : 100 * ((1 + f / 2 ^ 23) * 2 ^ e / 2 ^ 127) * 2 ^ (150 - e)
              = 100 * (1 + f / 2 ^ 23) / 2 ^ 127 * (2 ^ e * 2 ^ (150 - e)) := by ring
          rw [hre, hp]
          ring
        exact key _
      · have h1 : ¬ (0 : Int) ≤ (e : Int) - 150 := by omega
        have h2 : (-((e : Int) - 150)).toNat = 150 - e := by omega
        simp only [fmtFloat32, hE, h0, if_false, h1, h2]
        simp [hfin]

theorem endsWithTwoDecimals_digits (p : String) (c1 c0 : Char) (h1 : c1.isDigit = true)
    (h0 : c0.isDigit = true) :
    endsWithTwoDecimals (p ++ "." ++ String.singleton c1 ++ String.singleton c0) = true := by
  simp [endsWithTwoDecimals, String.data_append, String.singleton, h1, h0]

/-- The text of `%.2f` for a finite `float32`. -/
theorem fmtFloat32_finite (bits : Nat) (hfin : bits / 2 ^ 23 % 256 ≠ 255) :
    ∃ h : Nat,
      |100 * float32Abs bits - (h : ℚ)| ≤ 1 / 2
      ∧ (|100 * float32Abs bits - (h : ℚ)| = 1 / 2 → h % 2 = 0)
      ∧ fmtFloat32 bits
        = (if bits / 2 ^ 31 % 2 = 1 then "-" else "") ++ toString (h / 100) ++ "."
          ++ toString (h / 10 % 10) ++ toString (h % 10)
      ∧ endsWithTwoDecimals (fmtFloat32 bits) = true := by
  obtain ⟨N, den, hden, hval, htext⟩ := float32_hundredths bits hfin
  have hround := round_half_even N den hden
  rw [hval] at hround
  generalize (if den < 2 * (N % den) ∨ (2 * (N % den) = den ∧ N / den % 2 = 1)
      then N / den + 1 else N / den) = h at hround htext
  have hlt : h % 100 < 100 := Nat.mod_lt _ (by decide)
  have htwo := twoDigits_eq ⟨h % 100, hlt⟩
  simp only at htwo
  have e1 : h % 100 / 10 = h / 10 % 10 := by omega
  have e0 : h % 100 % 10 = h % 10 := by omega
  rw [e1, e0] at htwo
  have htext2 : fmtFloat32 bits
      = (if bits / 2 ^ 31 % 2 = 1 then "-" else "") ++ toString (h / 100) ++ "."
        ++ toString (h / 10 % 10) ++ toString (h % 10) := by
    rw [htext, htwo]
    simp [String.append_assoc]
  refine ⟨h, hround.1, hround.2, htext2, ?_⟩
  obtain ⟨s1, d1⟩ := toString_digit ⟨h / 10 % 10, Nat.mod_lt _ (by decide)⟩
  obtain ⟨s0, d0⟩ := toString_digit ⟨h % 10, Nat.mod_lt _ (by decide)⟩
  simp only at s1 s0 d1 d0
  rw [htext2, s1, s0]
  exact endsWithTwoDecimals_digits _ _ _ d1 d0

/-- The text of `%.2f` for a `float32` that is not finite. -/
theorem fmtFloat32_not_finite (bits : Nat) (hinf : bits / 2 ^ 23 % 256 = 255) :
    fmtFloat32 bits
        = (if bits % 2 ^ 23 ≠ 0 then "NaN" else if bits / 2 ^ 31 % 2 = 1 then "-Inf" else "+Inf")
    ∧ endsWithTwoDecimals (fmtFloat32 bits) = false := by
  have htext : fmtFloat32 bits
      = (if bits % 2 ^ 23 ≠ 0 then "NaN"
          else if bits / 2 ^ 31 % 2 = 1 then "-Inf" else "+Inf") := by
    simp only [fmtFloat32, hinf, if_true]
  refine ⟨htext, ?_⟩
  rw [htext]
  split_ifs <;> decide
theorem Println_two (a b : String) : Println [a, b] = a ++ " " ++ b ++ "\n" := by
  simp [Println, String.intercalate, String.intercalate.go]

/-- The standard output of a successful run. -/
theorem stdout_of_success (w : World) (prog path : String) (rest : List String)
    (data : List Byte) (sr : Nat) (result : LongRunningRecognizeResponse)
    (hargs : w.args = prog :: path :: rest) (hfs : w.fs path = .regular data)
    (hsr : (getSampleRate ⟨path, data, 0⟩).2 = .ok sr)
    (hread : w.readFileFault = none) (hclient : w.newClient = none)
    (hrec : w.recognize (buildRequest sr data) = none)
    (hwait : w.wait (buildRequest sr data) = .ok result) :
    stdoutOf (main w).events
      = ["Audio file: " ++ " " ++ path ++ "\n",
          "Sample Rate (Hz):" ++ " " ++ toString sr ++ "\n", "\n"]
        ++ (result.Results.flatMap (fun r => r.Alternatives)).map transcriptLine
        ++ ["\n", "Time duration : " ++ " " ++ w.elapsed ++ "\n"] := by
  rw [main_succeeds w prog path rest data sr result hargs hfs hsr hread hclient hrec hwait]
  simp [readEvents, headerEvents, stdoutOf_append, stdoutOf_map_stdout, stdoutOf,
    Println_two]

/-! ## Claims about main -/

/-- C3: the call `ReadFile` that follows `getSampleRate` returns every byte
of the file named by the argument; every recognition request of the run
carries exactly these bytes as its inline content; and when the sample rate
was parsed, the content read and the client created, the run does send that
request. The position of the handle used by `getSampleRate` plays no part. -/
theorem readFile_after_getSampleRate_is_whole_file (w : World) (prog path : String)
    (rest : List String) (data : List Byte)
    (hargs : w.args = prog :: path :: rest) (hfs : w.fs path = .regular data) :
    (w.readFileFault = none → ReadFile w.fs w.readFileFault path = .ok data)
    ∧ (∀ req, Event.recognize req ∈ (main w).events → req.Audio.AudioSource = .Content data)
    ∧ (∀ sr, (getSampleRate ⟨path, data, 0⟩).2 = .ok sr → w.readFileFault = none →
        w.newClient = none → Event.recognize (buildRequest sr data) ∈ (main w).events) := by
  refine ⟨fun hread => ?_, fun req hreq => ?_, fun sr hsr hread hclient => ?_⟩
  · rw [hread]
    exact ReadFile_whole w.fs path data hfs
  · obtain ⟨prog1, path1, rest1, data1, sr1, hargs1, hfs1, _, hreq1⟩ :=
      main_recognize_event w req hreq
    rw [hargs] at hargs1
    simp only [List.cons.injEq] at hargs1
    obtain ⟨_, hpath, _⟩ := hargs1
    subst hpath
    rw [hfs] at hfs1
    simp only [Node.regular.injEq] at hfs1
    subst hfs1
    rw [hreq1]
    rfl
  · exact readFile_whole_request w prog path rest data sr hargs hfs hsr hread hclient

/-- The witness of C3: the 47-byte example file is sent whole. -/
theorem readFile_after_getSampleRate_is_whole_file_witness :
    ReadFile helloWorld.fs helloWorld.readFileFault "a.wav" = .ok exampleWav :=
  (readFile_after_getSampleRate_is_whole_file helloWorld "app" "a.wav" [] exampleWav
    rfl (by decide)).1 rfl

/-- C4 (the code departs from it): for a file whose sample rate field is
0xFFFFFFFF `getSampleRate` returns 4294967295 and the request of the run
carries the sample rate -1, not the parsed value. -/
theorem request_sample_rate_differs_at_max :
    (getSampleRate ⟨"a.wav", wavLike [0xFF, 0xFF, 0xFF, 0xFF] [], 0⟩).2 = .ok 4294967295
    ∧ Event.recognize
        { Config := { Encoding := .LINEAR16, SampleRateHertz := -1, LanguageCode := "en-US" }
          Audio := { AudioSource := .Content (wavLike [0xFF, 0xFF, 0xFF, 0xFF] []) } }
      ∈ (main (worldOf (wavLike [0xFF, 0xFF, 0xFF, 0xFF] []) [])).events := by
  decide

/-- For a parsed sample rate below `2 ^ 31` every recognition request of the
run carries that value, with the encoding LINEAR16, the language tag `en-US`
and the whole file inline as its content. -/
theorem request_carries_sample_rate_below_two_pow_31 (w : World) (prog path : String)
    (rest : List String) (data : List Byte) (sr : Nat)
    (hargs : w.args = prog :: path :: rest) (hfs : w.fs path = .regular data)
    (hsr : (getSampleRate ⟨path, data, 0⟩).2 = .ok sr) (hsmall : sr < 2 ^ 31) :
    ∀ req, Event.recognize req ∈ (main w).events →
      req.Config.Encoding = .LINEAR16
      ∧ req.Config.LanguageCode = "en-US"
      ∧ req.Audio.AudioSource = .Content data
      ∧ req.Config.SampleRateHertz = (sr : Int) := by
  have hmod : sr % 2 ^ 32 = sr := Nat.mod_eq_of_lt (by omega)
  intro req hreq
  obtain ⟨prog1, path1, rest1, data1, sr1, hargs1, hfs1, hsr1, hreq1⟩ :=
    main_recognize_event w req hreq
  rw [hargs] at hargs1
  simp only [List.cons.injEq] at hargs1
  obtain ⟨_, hpath, _⟩ := hargs1
  subst hpath
  rw [hfs] at hfs1
  simp only [Node.regular.injEq] at hfs1
  subst hfs1
  rw [hsr] at hsr1
  simp only [Except.ok.injEq] at hsr1
  subst hsr1
  rw [hreq1]
  refine ⟨rfl, rfl, rfl, ?_⟩
  simp only [buildRequest, toInt32, hmod]
  rw [if_pos hsmall]

/-- C5: in a successful run the texts printed between the two blank lines
are the transcript lines of the alternatives of the first result group in
their order, then those of the second group, and so on: one line per
alternative, so that their number is the sum of the numbers of alternatives
of the groups; the loop itself appends exactly these lines to what was
printed before. -/
theorem transcript_lines_follow_response_order (w : World) (prog path : String)
    (rest : List String) (data : List Byte) (sr : Nat) (result : LongRunningRecognizeResponse)
    (hargs : w.args = prog :: path :: rest) (hfs : w.fs path = .regular data)
    (hsr : (getSampleRate ⟨path, data, 0⟩).2 = .ok sr)
    (hread : w.readFileFault = none) (hclient : w.newClient = none)
    (hrec : w.recognize (buildRequest sr data) = none)
    (hwait : w.wait (buildRequest sr data) = .ok result) :
    stdoutOf (main w).events
        = ["Audio file: " ++ " " ++ path ++ "\n",
            "Sample Rate (Hz):" ++ " " ++ toString sr ++ "\n", "\n"]
          ++ (result.Results.map (fun r => r.Alternatives.map transcriptLine)).flatten
          ++ ["\n", "Time duration : " ++ " " ++ w.elapsed ++ "\n"]
    ∧ ((result.Results.map (fun r => r.Alternatives.map transcriptLine)).flatten).length
        = (result.Results.map (fun r => r.Alternatives.length)).sum
    ∧ (∀ out : List Event,
        printResults out result.Results
          = out ++ ((result.Results.map (fun r => r.Alternatives)).flatten).map
              (fun alt => Event.stdout (transcriptLine alt))) := by
  refine ⟨?_, ?_, fun out => ?_⟩
  · rw [stdout_of_success w prog path rest data sr result hargs hfs hsr hread hclient hrec
      hwait]
    simp [List.flatMap, List.map_flatten, Function.comp_def]
  · simp [List.length_flatten, Function.comp_def]
  · rw [printResults_eq]
    rfl

/-- The witness of C5: two result groups with two and one alternatives give
three transcript lines in the order of the response. -/
theorem transcript_lines_follow_response_order_witness :
    stdoutOf (main (worldOf exampleWav
        [{ Alternatives := [{ Transcript := "a", Confidence := 0x3F000000 },
            { Transcript := "b", Confidence := 0x3F733333 }] },
          { Alternatives := [{ Transcript := "c", Confidence := 0x3E800000 }] }])).events
      = ["Audio file:  a.wav\n", "Sample Rate (Hz): 16000\n", "\n",
          "\"a\" (confidence=0.50)\n", "\"b\" (confidence=0.95)\n",
          "\"c\" (confidence=0.25)\n", "\n", "Time duration :  1.5s\n"] :=
  (transcript_lines_follow_response_order
    (worldOf exampleWav
        [{ Alternatives := [{ Transcript := "a", Confidence := 0x3F000000 },
            { Transcript := "b", Confidence := 0x3F733333 }] },
          { Alternatives := [{ Transcript := "c", Confidence := 0x3E800000 }] }])
    "app" "a.wav" [] exampleWav 16000
    { Results := [{ Alternatives := [{ Transcript := "a", Confidence := 0x3F000000 },
            { Transcript := "b", Confidence := 0x3F733333 }] },
          { Alternatives := [{ Transcript := "c", Confidence := 0x3E800000 }] }] }
    rfl (by decide) (by decide) rfl rfl rfl rfl).1

/-- C6: with fewer than two entries in the argument list the run consists
of the one printed message `No argument provided.` and ends with exit
status 0: no file is opened or read, no client is created and no request is
sent. -/
theorem no_argument_prints_and_returns (w : World) (h : w.args.length < 2) :
    main w = { events := [.stdout "No argument provided.\n"], exit := 0 } := by
  have hline : Println ["No argument provided."] = "No argument provided.\n" := by decide
  simp [main, h, hline]

/-- The witness of C6: a run with the program name as the only argument. -/
theorem no_argument_prints_and_returns_witness :
    main { helloWorld with args := ["app"] }
      = { events := [.stdout "No argument provided.\n"], exit := 0 } :=
  no_argument_prints_and_returns { helloWorld with args := ["app"] } (by decide)

/-- C7: in a run with a file argument, each of the six steps that fails
ends the run there: the events are those of the steps before it, the call of
the failing step, and the fatal log message with the error, and the exit
status is 1. No later step is called, no step is called twice and no
transcript line is printed. The open step fails with whatever error the
file system reports for the path; the sample rate step fails with whatever
error `getSampleRate` returns on the opened handle: the read error on a
directory or a short file, the seek error on a pipe. In
general a run that does not exit with status 0 exits with status 1, ends with
a fatal log message, and has printed the audio file line alone or the audio
file line and the sample rate line. -/
theorem failing_step_is_fatal (w : World) (prog path : String) (rest : List String)
    (hargs : w.args = prog :: path :: rest) :
    (∀ errno, w.fs path = .fails errno →
      main w
        = { events := [.stdout ("Audio file: " ++ " " ++ path ++ "\n"), .openFile path,
              .fatal ("Failed to open WAV file: " ++ ("open " ++ path ++ ": " ++ errno))],
            exit := 1 })
    ∧ (∀ file err, osOpen w.fs path = .ok file →
        (getSampleRateOn Handle.Seek Handle.Read file).2 = .error (.error err) →
        main w
          = { events := [.stdout ("Audio file: " ++ " " ++ path ++ "\n"), .openFile path,
                .headerRead path, .fatal ("Failed to get sample rate: " ++ err)],
              exit := 1 })
    ∧ (w.fs path = .directory →
        main w
          = { events := [.stdout ("Audio file: " ++ " " ++ path ++ "\n"), .openFile path,
                .headerRead path,
                .fatal ("Failed to get sample rate: " ++ ("failed to read sample rate bytes: "
                  ++ ("read " ++ path ++ ": is a directory")))],
              exit := 1 })
    ∧ (∀ stream, w.fs path = .pipe stream →
        main w
          = { events := [.stdout ("Audio file: " ++ " " ++ path ++ "\n"), .openFile path,
                .headerRead path,
                .fatal ("Failed to get sample rate: " ++ ("failed to seek to sample rate: "
                  ++ ("seek " ++ path ++ ": illegal seek")))],
              exit := 1 })
    ∧ (∀ data sr err, w.fs path = .regular data →
        (getSampleRate ⟨path, data, 0⟩).2 = .ok sr → w.readFileFault = some err →
        main w
          = { events := [.stdout ("Audio file: " ++ " " ++ path ++ "\n"), .openFile path,
                .headerRead path,
                .stdout ("Sample Rate (Hz):" ++ " " ++ toString sr ++ "\n"), .readFile path,
                .fatal ("Failed to read audio file: " ++ err)],
              exit := 1 })
    ∧ (∀ data sr err, w.fs path = .regular data →
        (getSampleRate ⟨path, data, 0⟩).2 = .ok sr → w.readFileFault = none →
        w.newClient = some err →
        main w
          = { events := [.stdout ("Audio file: " ++ " " ++ path ++ "\n"), .openFile path,
                .headerRead path,
                .stdout ("Sample Rate (Hz):" ++ " " ++ toString sr ++ "\n"), .readFile path,
                .newClient "chatkey.json", .fatal ("Failed to create client: " ++ err)],
              exit := 1 })
    ∧ (∀ data sr err, w.fs path = .regular data →
        (getSampleRate ⟨path, data, 0⟩).2 = .ok sr → w.readFileFault = none →
        w.newClient = none → w.recognize (buildRequest sr data) = some err →
        main w
          = { events := [.stdout ("Audio file: " ++ " " ++ path ++ "\n"), .openFile path,
                .headerRead path,
                .stdout ("Sample Rate (Hz):" ++ " " ++ toString sr ++ "\n"), .readFile path,
                .newClient "chatkey.json", .recognize (buildRequest sr data),
                .fatal ("Failed to start long-running recognition: " ++ err)],
              exit := 1 })
    ∧ (∀ data sr err, w.fs path = .regular data →
        (getSampleRate ⟨path, data, 0⟩).2 = .ok sr → w.readFileFault = none →
        w.newClient = none → w.recognize (buildRequest sr data) = none →
        w.wait (buildRequest sr data) = .error err →
        main w
          = { events := [.stdout ("Audio file: " ++ " " ++ path ++ "\n"), .openFile path,
                .headerRead path,
                .stdout ("Sample Rate (Hz):" ++ " " ++ toString sr ++ "\n"), .readFile path,
                .newClient "chatkey.json", .recognize (buildRequest sr data), .wait,
                .fatal ("Failed to get long-running result: " ++ err)],
              exit := 1 })
    ∧ ((main w).exit ≠ 0 →
        (main w).exit = 1
        ∧ (∃ message, (main w).events.getLast? = some (.fatal message))
        ∧ (stdoutOf (main w).events = ["Audio file: " ++ " " ++ path ++ "\n"]
            ∨ ∃ sr : Nat, stdoutOf (main w).events
                = ["Audio file: " ++ " " ++ path ++ "\n",
                    "Sample Rate (Hz):" ++ " " ++ toString sr ++ "\n"])) := by
  refine ⟨?_, ?_, ?_, ?_, ?_, ?_, ?_, ?_, ?_⟩
  · intro errno hfs
    have hopen : osOpen w.fs path = .error ("open " ++ path ++ ": " ++ errno) := by
      simp [osOpen, hfs]
    rw [main_open_fails w prog path rest _ hargs hopen, Println_two]
  · intro file err hopen hsr
    rw [main_header_fails w prog path rest file err hargs hopen hsr]
    simp [headerEvents, Println_two]
  · intro hfs
    have hopen : osOpen w.fs path = .ok (.directory path 0) := by
      simp [osOpen, hfs]
    have hsr := congrArg Prod.snd (getSampleRateOn_directory path 0)
    rw [main_header_fails w prog path rest _ _ hargs hopen hsr]
    simp [headerEvents, Println_two]
  · intro stream hfs
    have hopen : osOpen w.fs path = .ok (.pipe path stream) := by
      simp [osOpen, hfs]
    have hsr := congrArg Prod.snd (getSampleRateOn_pipe path stream)
    rw [main_header_fails w prog path rest _ _ hargs hopen hsr]
    simp [headerEvents, Println_two]
  · intro data sr err hfs hsr hread
    rw [main_read_fails w prog path rest data sr err hargs hfs hsr hread]
    simp [readEvents, headerEvents, Println_two]
  · intro data sr err hfs hsr hread hclient
    rw [main_client_fails w prog path rest data sr err hargs hfs hsr hread hclient]
    simp [readEvents, headerEvents, Println_two]
  · intro data sr err hfs hsr hread hclient hrec
    rw [main_recognize_fails w prog path rest data sr err hargs hfs hsr hread hclient hrec]
    simp [readEvents, headerEvents, Println_two]
  · intro data sr err hfs hsr hread hclient hrec hwait
    rw [main_wait_fails w prog path rest data sr err hargs hfs hsr hread hclient hrec hwait]
    simp [readEvents, headerEvents, Println_two]
  · intro hexit
    rcases main_cases w with ⟨_, hm⟩ | ⟨_, p1, _, _, ha, _, hm⟩
      | ⟨_, p1, _, _, _, ha, _, _, hm⟩
      | ⟨_, p1, _, _, sr, _, ha, _, _, hm⟩ | ⟨_, p1, _, _, sr, _, ha, _, _, hm⟩
      | ⟨_, p1, _, _, sr, _, ha, _, _, hm⟩ | ⟨_, p1, _, _, sr, _, ha, _, _, hm⟩
      | ⟨_, p1, _, _, sr, _, ha, _, _, _, hm⟩
    · rw [hm] at hexit
      exact absurd rfl hexit
    all_goals
      rw [hargs] at ha
      simp only [List.cons.injEq] at ha
      obtain ⟨_, hpath, _⟩ := ha
      subst hpath
      rw [hm] at hexit ⊢
    · exact ⟨rfl, ⟨_, rfl⟩, Or.inl (by simp [stdoutOf, Println_two])⟩
    · exact ⟨rfl, by simp [headerEvents], Or.inl (by simp [stdoutOf, headerEvents, Println_two])⟩
    · exact ⟨rfl, by simp [readEvents, headerEvents],
        Or.inr ⟨sr, by simp [stdoutOf, readEvents, headerEvents, Println_two]⟩⟩
    · exact ⟨rfl, by simp [readEvents, headerEvents],
        Or.inr ⟨sr, by simp [stdoutOf, readEvents, headerEvents, Println_two]⟩⟩
    · exact ⟨rfl, by simp [readEvents, headerEvents],
        Or.inr ⟨sr, by simp [stdoutOf, readEvents, headerEvents, Println_two]⟩⟩
    · exact ⟨rfl, by simp [readEvents, headerEvents],
        Or.inr ⟨sr, by simp [stdoutOf, readEvents, headerEvents, Println_two]⟩⟩
    · exact absurd rfl hexit

/-- The witness of C7: runs with one failing step each. The argument names
nothing (`no such file or directory`); it goes through a regular file
(`not a directory`); it names a directory, which opens and fails in
`getSampleRate`; it names a pipe, which cannot seek; it names a 10-byte file; the full read meets an input/output
error; the credentials are missing; the request is rejected; the operation
fails. -/
theorem failing_step_is_fatal_witness :
    main { helloWorld with fs := fun _ => .fails "no such file or directory" }
        = { events := [.stdout "Audio file:  a.wav\n", .openFile "a.wav",
              .fatal "Failed to open WAV file: open a.wav: no such file or directory"],
            exit := 1 }
    ∧ main { helloWorld with args := ["app", "a.wav/x"], fs := fun _ => .fails "not a directory" }
        = { events := [.stdout "Audio file:  a.wav/x\n", .openFile "a.wav/x",
              .fatal "Failed to open WAV file: open a.wav/x: not a directory"],
            exit := 1 }
    ∧ main { helloWorld with args := ["app", "music"], fs := fun _ => .directory }
        = { events := [.stdout "Audio file:  music\n", .openFile "music", .headerRead "music",
              .fatal ("Failed to get sample rate: failed to read sample rate bytes: "
                ++ "read music: is a directory")],
            exit := 1 }
    ∧ main { helloWorld with args := ["app", "fifo"], fs := fun _ => .pipe exampleWav }
        = { events := [.stdout "Audio file:  fifo\n", .openFile "fifo", .headerRead "fifo",
              .fatal ("Failed to get sample rate: failed to seek to sample rate: "
                ++ "seek fifo: illegal seek")],
            exit := 1 }
    ∧ main (worldOf (List.replicate 10 0) [])
        = { events := [.stdout "Audio file:  a.wav\n", .openFile "a.wav", .headerRead "a.wav",
              .fatal "Failed to get sample rate: failed to read sample rate bytes: EOF"],
            exit := 1 }
    ∧ main { helloWorld with readFileFault := some "read a.wav: input/output error" }
        = { events := [.stdout "Audio file:  a.wav\n", .openFile "a.wav", .headerRead "a.wav",
              .stdout "Sample Rate (Hz): 16000\n", .readFile "a.wav",
              .fatal "Failed to read audio file: read a.wav: input/output error"],
            exit := 1 }
    ∧ main { helloWorld with newClient := some "cannot read credentials file" }
        = { events := [.stdout "Audio file:  a.wav\n", .openFile "a.wav", .headerRead "a.wav",
              .stdout "Sample Rate (Hz): 16000\n", .readFile "a.wav",
              .newClient "chatkey.json",
              .fatal "Failed to create client: cannot read credentials file"],
            exit := 1 }
    ∧ main { helloWorld with recognize := fun _ => some "quota exceeded" }
        = { events := [.stdout "Audio file:  a.wav\n", .openFile "a.wav", .headerRead "a.wav",
              .stdout "Sample Rate (Hz): 16000\n", .readFile "a.wav",
              .newClient "chatkey.json", .recognize (buildRequest 16000 exampleWav),
              .fatal "Failed to start long-running recognition: quota exceeded"],
            exit := 1 }
    ∧ main { helloWorld with wait := fun _ => .error "operation failed" }
        = { events := [.stdout "Audio file:  a.wav\n", .openFile "a.wav", .headerRead "a.wav",
              .stdout "Sample Rate (Hz): 16000\n", .readFile "a.wav",
              .newClient "chatkey.json", .recognize (buildRequest 16000 exampleWav), .wait,
              .fatal "Failed to get long-running result: operation failed"],
            exit := 1 } :=
  ⟨(failing_step_is_fatal { helloWorld with fs := fun _ => .fails "no such file or directory" }
      "app" "a.wav" [] rfl).1 "no such file or directory" rfl,
    (failing_step_is_fatal
      { helloWorld with args := ["app", "a.wav/x"], fs := fun _ => .fails "not a directory" }
      "app" "a.wav/x" [] rfl).1 "not a directory" rfl,
    (failing_step_is_fatal
      { helloWorld with args := ["app", "music"], fs := fun _ => .directory }
      "app" "music" [] rfl).2.2.1 rfl,
    (failing_step_is_fatal
      { helloWorld with args := ["app", "fifo"], fs := fun _ => .pipe exampleWav }
      "app" "fifo" [] rfl).2.2.2.1 exampleWav rfl,
    (failing_step_is_fatal (worldOf (List.replicate 10 0) []) "app" "a.wav" [] rfl).2.1
      (.regular ⟨"a.wav", List.replicate 10 0, 0⟩) "failed to read sample rate bytes: EOF"
      (by decide) (by decide),
    (failing_step_is_fatal
      { helloWorld with readFileFault := some "read a.wav: input/output error" }
      "app" "a.wav" [] rfl).2.2.2.2.1
      exampleWav 16000 "read a.wav: input/output error" (by decide) (by decide) rfl,
    (failing_step_is_fatal { helloWorld with newClient := some "cannot read credentials file" }
      "app" "a.wav" [] rfl).2.2.2.2.2.1
      exampleWav 16000 "cannot read credentials file" (by decide) (by decide) rfl rfl,
    (failing_step_is_fatal { helloWorld with recognize := fun _ => some "quota exceeded" }
      "app" "a.wav" [] rfl).2.2.2.2.2.2.1
      exampleWav 16000 "quota exceeded" (by decide) (by decide) rfl rfl rfl,
    (failing_step_is_fatal { helloWorld with wait := fun _ => .error "operation failed" }
      "app" "a.wav" [] rfl).2.2.2.2.2.2.2.1
      exampleWav 16000 "operation failed" (by decide) (by decide) rfl rfl rfl rfl⟩

/-- C8, refuted as stated: when the service returns an alternative whose
confidence is a NaN, the transcript line of the successful run is
`"hello world" (confidence=NaN)`, a confidence text without two decimals. -/
theorem transcript_line_of_nan_confidence :
    stdoutOf (main (worldOf exampleWav
        [{ Alternatives := [{ Transcript := "hello world", Confidence := 0x7FC00000 }] }])).events
      = ["Audio file:  a.wav\n", "Sample Rate (Hz): 16000\n", "\n",
          "\"hello world\" (confidence=NaN)\n", "\n", "Time duration :  1.5s\n"]
    ∧ (main (worldOf exampleWav
        [{ Alternatives := [{ Transcript := "hello world", Confidence := 0x7FC00000 }] }])).exit
      = 0
    ∧ endsWithTwoDecimals (fmtFloat32 0x7FC00000) = false := by
  decide

/-- C8, amended: the standard output of a successful run is the audio file
line, the sample rate line with the parsed value in decimal, a blank line,
one line `"<transcript>" (confidence=<c>)` per alternative, a blank line and
the duration line, and the exit status is 0. For a finite confidence `<c>` is
the confidence with two decimals: a `-` when the sign bit is set, then the
decimal digits of `h / 100`, a point and the two digits of `h % 100`, where
`h` is the integer nearest to 100 times the magnitude of the confidence, the
even one at a tie. For a confidence that is not finite `<c>` is `NaN`, `+Inf`
or `-Inf`. With no result group the output is the two header lines, two blank
lines and the duration line; and for a 44-byte header with the sample rate
field 16000 followed by any audio bytes and the one alternative `hello world`
of confidence 0.95 it contains `Sample Rate (Hz): 16000` and
`"hello world" (confidence=0.95)`. -/
theorem stdout_of_successful_run (w : World) (prog path : String) (rest : List String)
    (data : List Byte) (sr : Nat) (result : LongRunningRecognizeResponse)
    (hargs : w.args = prog :: path :: rest) (hfs : w.fs path = .regular data)
    (hsr : (getSampleRate ⟨path, data, 0⟩).2 = .ok sr)
    (hread : w.readFileFault = none) (hclient : w.newClient = none)
    (hrec : w.recognize (buildRequest sr data) = none)
    (hwait : w.wait (buildRequest sr data) = .ok result) :
    (stdoutOf (main w).events
        = ["Audio file: " ++ " " ++ path ++ "\n",
            "Sample Rate (Hz):" ++ " " ++ toString sr ++ "\n", "\n"]
          ++ (result.Results.flatMap (fun r => r.Alternatives)).map
              (fun alt => "\"" ++ alt.Transcript ++ "\" (confidence="
                ++ fmtFloat32 alt.Confidence ++ ")\n")
          ++ ["\n", "Time duration : " ++ " " ++ w.elapsed ++ "\n"]
      ∧ (main w).exit = 0
      ∧ ∀ message, Event.fatal message ∉ (main w).events)
    ∧ (∀ r ∈ result.Results, ∀ alt ∈ r.Alternatives,
        (alt.Confidence / 2 ^ 23 % 256 ≠ 255 →
          ∃ h : Nat,
            |100 * float32Abs alt.Confidence - (h : ℚ)| ≤ 1 / 2
            ∧ (|100 * float32Abs alt.Confidence - (h : ℚ)| = 1 / 2 → h % 2 = 0)
            ∧ fmtFloat32 alt.Confidence
              = (if alt.Confidence / 2 ^ 31 % 2 = 1 then "-" else "") ++ toString (h / 100)
                ++ "." ++ toString (h / 10 % 10) ++ toString (h % 10)
            ∧ endsWithTwoDecimals (fmtFloat32 alt.Confidence) = true)
        ∧ (alt.Confidence / 2 ^ 23 % 256 = 255 →
            fmtFloat32 alt.Confidence
              = (if alt.Confidence % 2 ^ 23 ≠ 0 then "NaN"
                  else if alt.Confidence / 2 ^ 31 % 2 = 1 then "-Inf" else "+Inf")))
    ∧ (result.Results = [] →
        stdoutOf (main w).events
          = ["Audio file: " ++ " " ++ path ++ "\n",
              "Sample Rate (Hz):" ++ " " ++ toString sr ++ "\n", "\n", "\n",
              "Time duration : " ++ " " ++ w.elapsed ++ "\n"])
    ∧ (∀ front header pcm : List Byte, front.length = 24 → header.length = 16 →
        data = front ++ putUint32 16000 ++ header ++ pcm →
        result = { Results := [{ Alternatives :=
          [{ Transcript := "hello world", Confidence := 0x3F733333 }] }] } →
        "Sample Rate (Hz): 16000\n" ∈ stdoutOf (main w).events
        ∧ "\"hello world\" (confidence=0.95)\n" ∈ stdoutOf (main w).events) := by
  have hout := stdout_of_success w prog path rest data sr result hargs hfs hsr hread hclient
    hrec hwait
  have hmain := main_succeeds w prog path rest data sr result hargs hfs hsr hread hclient
    hrec hwait
  refine ⟨⟨?_, ?_, ?_⟩, ?_, ?_, ?_⟩
  · rw [hout]
    rfl
  · rw [hmain]
  · intro message
    rw [hmain]
    simp [readEvents, headerEvents]
  · intro r _ alt _
    exact ⟨fun hfin => fmtFloat32_finite alt.Confidence hfin,
      fun hinf => (fmtFloat32_not_finite alt.Confidence hinf).1⟩
  · intro hnone
    rw [hout, hnone]
    rfl
  · intro front header pcm hfront _ hdata hresult
    have h16000 : sr = 16000 := by
      have hfield := (getSampleRate_decodes_field_value 16000 path front (header ++ pcm) 0
        (by decide) hfront)
      rw [hdata, List.append_assoc] at hsr
      rw [hfield] at hsr
      simp only [Except.ok.injEq] at hsr
      exact hsr.symm
    have hconf : fmtFloat32 0x3F733333 = "0.95" := by decide
    have hrate : toString (16000 : Nat) = "16000" := by decide
    rw [hout, hresult, h16000]
    simp [transcriptLine, hconf, hrate]

/-- The witness of C8 as amended: the run on the 47-byte example file with
the one alternative `hello world` of confidence 0.95. -/
theorem stdout_of_successful_run_witness :
    stdoutOf (main helloWorld).events
      = ["Audio file:  a.wav\n", "Sample Rate (Hz): 16000\n", "\n",
          "\"hello world\" (confidence=0.95)\n", "\n", "Time duration :  1.5s\n"] :=
  (stdout_of_successful_run helloWorld "app" "a.wav" [] exampleWav 16000
    { Results := [{ Alternatives :=
        [{ Transcript := "hello world", Confidence := 0x3F733333 }] }] }
    rfl (by decide) (by decide) rfl rfl rfl rfl).1.1

end App
